import Mathlib

/-!
# ErrorCodes: the scan loop and the multi-file driver of `main`

A shallow embedding of `src/ErrorCodes/main.go`.  The three library
collaborators (the heka framing splitter, `proto.Unmarshal` and the compiled
message matcher) are not part of the program; they enter as parameters: the
splitter as the list of values its successive calls return, the decoder and
the matcher as functions.

`offset` is an `int64` and wraps as one.  The counters `processed`, `matched`
and the map's counts grow by 1 per record or field and are embedded as natural
numbers; no statement below depends on a count near `2^63`.
-/

namespace ErrorCodes

/-! ## Data model -/

/-- Go `error` values as far as `main` tells them apart: `io.EOF` against any other error. -/
inductive GoError
  | EOF
  | other (msg : String)
  deriving DecidableEq, Repr

/-- The text of a Go error, `err.Error()`. -/
def GoError.Error : GoError → String
  | GoError.EOF => "EOF"
  | GoError.other msg => msg

/-- One element of a Go `[]byte`. -/
abbrev Byte := Fin 256

/-- The part of a heka `message.Field` that `main` reads: the pointer
    `item.Name` (`none` for `nil`: the decoder leaves it so for a field that
    carries no name) and the string `fmt.Sprintf("%+v", item.GetValue())`. -/
structure Field where
  Name : Option String
  Value : String
  deriving DecidableEq, Repr

/-- The part of a heka `message.Message` that `main` reads: `msg.Fields`, in order. -/
structure Message where
  Fields : List Field
  deriving DecidableEq, Repr

/-- What one call `sRunner.GetRecordFromStream(file)` returns: `(n, record, err)`,
    `err = none` standing for Go's `nil`. -/
structure SplitterResult where
  n : Nat
  record : List Byte
  err : Option GoError
  deriving DecidableEq, Repr

/-- A line written to standard error (or, for `println`, by `fmt.Println`). -/
inductive Diag
  | sizeTooLarge
  | input (offset : Int)
  | corruption (offset : Int) (bytes : Int)
  | unmarshalError (offset : Int)
  | summary (processed matched : Nat)
  | fatal (e : GoError)
  | println (e : GoError)
  deriving DecidableEq, Repr

/-- The Go map `errorCodes : map[string]int`, as an association list with one
    entry per key. -/
abbrev CountMap := List (String × Nat)

/-- Reading `errorCodes[k]`: the stored count, `0` for an absent key. -/
def CountMap.get : CountMap → String → Nat
  | [], _ => 0
  | (k', c) :: rest, k => if k' = k then c else CountMap.get rest k

/-- Writing `errorCodes[k] = v`: overwrite the entry of `k`, or add one. -/
def CountMap.set : CountMap → String → Nat → CountMap
  | [], k, v => [(k, v)]
  | (k', c) :: rest, k, v =>
    if k' = k then (k', v) :: rest else (k', c) :: CountMap.set rest k v

/-- The statement `errorCodes[value] = errorCodes[value] + 1` (line 119). -/
def CountMap.incr (m : CountMap) (value : String) : CountMap :=
  m.set value (m.get value + 1)

/-- What the scan loop needs from outside: the library constant
    `message.HEADER_FRAMING_SIZE`, `proto.Unmarshal` (`none` for a decode
    error), the compiled matcher `match.Match`, and the flag `-tail`. -/
structure LoopCtx where
  HEADER_FRAMING_SIZE : Nat
  Unmarshal : List Byte → Option Message
  Match : Message → Bool
  flagTail : Bool

/-- The variables the `for true` loop of one file works on (lines 36, 72, 84),
    the lines it has written to standard error, and `iters`, a ghost counter of
    the passes through the loop body (calls of `GetRecordFromStream`). -/
structure ScanState where
  errorCodes : CountMap
  offset : Int
  processed : Nat
  matched : Nat
  stderr : List Diag
  iters : Nat
  deriving DecidableEq, Repr

/-- How one pass through the loop body ends: it reaches the next pass (by
    falling through or by `continue`), it leaves the loop by `break`, or the
    Go runtime aborts the process with a panic (an index or slice bound out of
    range on lines 105-106, a nil-pointer dereference on line 118). -/
inductive Ctl
  | next
  | brk (e : GoError)
  | panic
  deriving DecidableEq, Repr

/-- How the scan of a list of splitter results ends: the list ran out with the
    loop still running, the loop was left by `break` on the error `e`, or the
    process panicked. -/
inductive LoopEnd
  | running
  | broke (e : GoError)
  | panicked
  deriving DecidableEq, Repr

/-! ## The scan loop (lines 88-125) -/

/-- Lines 105-106: `headerLen := int(record[1]) + message.HEADER_FRAMING_SIZE`
    and the slice `record[headerLen:]`.  `none` is the runtime panic of an
    index or a slice bound out of range. -/
def payload (hfs : Nat) (record : List Byte) : Option (List Byte) :=
  match record[1]? with
  | none => none
  | some b =>
    let headerLen := b.val + hfs
    if headerLen ≤ record.length then some (record.drop headerLen) else none

/-- Lines 116-121: the loop over `msg.Fields`.  The second component is `false`
    when the loop meets a field whose `Name` is `nil`: `*item.Name` on line 118
    is a nil-pointer dereference and the process panics there, after the
    increments already made. -/
def countFields : CountMap → List Field → CountMap × Bool
  | m, [] => (m, true)
  | m, item :: rest =>
    match item.Name with
    | none => (m, false)
    | some name => countFields (if name = "errorCode" then m.incr item.Value else m) rest

/-- Lines 90-92: the corruption diagnostic. -/
def corruptionCheck (s : ScanState) (r : SplitterResult) : ScanState :=
  if 0 < r.n ∧ r.n ≠ r.record.length then
    { s with stderr := s.stderr ++ [Diag.corruption s.offset ((r.n : Int) - r.record.length)] }
  else s

/-- The `int64` that an integer wraps to. -/
def wrapInt64 (x : Int) : Int :=
  (x + 9223372036854775808) % 18446744073709551616 - 9223372036854775808

/-- Line 124: `offset += int64(n)`. -/
def advance (s : ScanState) (r : SplitterResult) : ScanState :=
  { s with offset := wrapInt64 (s.offset + r.n) }

/-- The state on line 105 of a pass on an error-free, non-empty record: after
    the corruption check (lines 90-92) and `processed += 1` (line 104). -/
def atPayload (s0 : ScanState) (r : SplitterResult) : ScanState :=
  let s := corruptionCheck { s0 with iters := s0.iters + 1 } r
  { s with processed := s.processed + 1 }

/-- Lines 106-124 of a pass, from the call of `proto.Unmarshal` on the payload
    `p`: the decode, the matcher, the loop over the fields, the offset.  The
    two `continue` statements (lines 108 and 112) go to the next pass without
    reaching line 124. -/
def decodePass (c : LoopCtx) (s : ScanState) (r : SplitterResult) (p : List Byte) :
    ScanState × Ctl :=
  match c.Unmarshal p with
  | none => ({ s with stderr := s.stderr ++ [Diag.unmarshalError s.offset] }, Ctl.next)
  | some msg =>
    if !c.Match msg then (s, Ctl.next)
    else
      let s := { s with matched := s.matched + 1 }
      match countFields s.errorCodes msg.Fields with
      | (m, false) => ({ s with errorCodes := m }, Ctl.panic)
      | (m, true) => (advance { s with errorCodes := m } r, Ctl.next)

/-- One pass through the body of `for true` (lines 89-124) on the splitter
    result `r`. -/
def loopBody (c : LoopCtx) (s0 : ScanState) (r : SplitterResult) : ScanState × Ctl :=
  let s := corruptionCheck { s0 with iters := s0.iters + 1 } r
  match r.err with
  | some e =>
    if e = GoError.EOF then
      if !c.flagTail then (s, Ctl.brk e)
      else (advance s r, Ctl.next)
    else (s, Ctl.brk e)
  | none =>
    if 0 < r.record.length then
      match payload c.HEADER_FRAMING_SIZE r.record with
      | none => (atPayload s0 r, Ctl.panic)
      | some p => decodePass c (atPayload s0 r) r p
    else (advance s r, Ctl.next)

/-- The loop `for true` (lines 88-125) run on the successive results of the splitter. -/
def scanLoop (c : LoopCtx) : ScanState → List SplitterResult → ScanState × LoopEnd
  | s, [] => (s, LoopEnd.running)
  | s, r :: rs =>
    match loopBody c s r with
    | (s', Ctl.next) => scanLoop c s' rs
    | (s', Ctl.brk e) => (s', LoopEnd.broke e)
    | (s', Ctl.panic) => (s', LoopEnd.panicked)

/-! ## The driver: `main` (lines 28-135) -/

/-- One command-line file name with what the operating system and the library
    answer for it: the error of `os.Open`, of `file.Seek`, of `splitter.Init`
    inside `makeSplitterRunner` (`none` for `nil`), and the results of the
    successive calls of `GetRecordFromStream` on the file. -/
structure InputFile where
  openErr : Option GoError
  seekErr : Option GoError
  splitterInitErr : Option GoError
  stream : List SplitterResult
  deriving DecidableEq, Repr

/-- The flags of one run, `flag.Args()` as `files`, and the error of
    `os.OpenFile(*flagOutput, ...)`, consulted only when `-output` is not empty. -/
structure Args where
  flagMatch : String
  flagOutput : String
  flagTail : Bool
  flagOffset : Int
  flagMaxMessageSize : Nat
  outputOpenErr : Option GoError
  files : List InputFile

/-- The library functions `main` calls apart from the splitter:
    `message.CreateMatcherSpecification`, `proto.Unmarshal`, and the constant
    `message.HEADER_FRAMING_SIZE`. -/
structure Env where
  HEADER_FRAMING_SIZE : Nat
  Unmarshal : List Byte → Option Message
  CreateMatcherSpecification : String → Except GoError (Message → Bool)

/-- How the process ends: `os.Exit(status)` (a return from `main` is status 0),
    a runtime panic, or not at all within the splitter results supplied (the scan
    loop of some file is still running when they run out). -/
inductive Termination
  | exit (status : Nat)
  | panic
  | scanning
  deriving DecidableEq, Repr

/-- What a run leaves behind: how it ended, the `(code, count)` pairs of the lines
    `"code, count"` written to the handle `out` (lines 128-130), and the
    diagnostics. -/
structure Outcome where
  term : Termination
  out : List (String × Nat)
  stderr : List Diag
  deriving DecidableEq, Repr

/-- The variables of `main` that live across the files: the map `errorCodes`
    (line 36), the function-level `err` (line 46), and the diagnostics so far. -/
structure DriverState where
  errorCodes : CountMap
  err : Option GoError
  stderr : List Diag
  deriving DecidableEq, Repr

/-- The function `makeSplitterRunner` (lines 16-26): when `splitter.Init` fails,
    its error is wrapped by `fmt.Errorf` and returned; otherwise the runner is
    returned, here as the results its calls of `GetRecordFromStream` will give. -/
def makeSplitterRunner (initErr : Option GoError) (stream : List SplitterResult) :
    Except GoError (List SplitterResult) :=
  match initErr with
  | some err =>
    Except.error (GoError.other ("Error initializing HekaFramingSplitter: " ++ err.Error))
  | none => Except.ok stream

/-- `math.MaxUint32`. -/
def MaxUint32 : Nat := 4294967295

/-- The state in which the scan loop of a file starts (lines 72-73, 83-84):
    `offset` is what `file.Seek(*flagOffset, 0)` returned, the counters are zero,
    the map is the shared one. -/
def scanStart (flagOffset : Int) (d : DriverState) : ScanState :=
  { errorCodes := d.errorCodes, offset := flagOffset, processed := 0, matched := 0,
    stderr := d.stderr ++ [Diag.input flagOffset], iters := 0 }

/-- The body of `for _, filename := range flag.Args()` (lines 66-126) for one
    file: either the run ends here, or the loop goes on with the next file.
    The `err` declared by `:=` on lines 78 and 89 are new variables of the
    inner blocks; the function-level `err` is assigned by `os.Open` and
    `file.Seek` only. -/
def fileBody (c : LoopCtx) (flagOffset : Int) (d : DriverState) (f : InputFile) :
    Outcome ⊕ DriverState :=
  match f.openErr with
  | some e => Sum.inl { term := Termination.exit 3, out := [], stderr := d.stderr ++ [Diag.fatal e] }
  | none =>
    match f.seekErr with
    | some e => Sum.inl { term := Termination.exit 5, out := [], stderr := d.stderr ++ [Diag.fatal e] }
    | none =>
      let d := { d with err := none }
      match makeSplitterRunner f.splitterInitErr f.stream with
      | Except.error e =>
        Sum.inl { term := Termination.exit 7, out := [], stderr := d.stderr ++ [Diag.println e] }
      | Except.ok sRunner =>
        match scanLoop c (scanStart flagOffset d) sRunner with
        | (s, LoopEnd.running) => Sum.inl { term := Termination.scanning, out := [], stderr := s.stderr }
        | (s, LoopEnd.panicked) => Sum.inl { term := Termination.panic, out := [], stderr := s.stderr }
        | (s, LoopEnd.broke _) =>
          Sum.inr { errorCodes := s.errorCodes, err := d.err,
                    stderr := s.stderr ++ [Diag.summary s.processed s.matched] }

/-- Lines 128-134: the report, then the check of the function-level `err`. -/
def report (d : DriverState) : Outcome :=
  match d.err with
  | some e => { term := Termination.exit 6, out := d.errorCodes, stderr := d.stderr ++ [Diag.fatal e] }
  | none => { term := Termination.exit 0, out := d.errorCodes, stderr := d.stderr }

/-- The loop over the files (lines 65-127) followed by the report. -/
def fileLoop (c : LoopCtx) (flagOffset : Int) : DriverState → List InputFile → Outcome
  | d, [] => report d
  | d, f :: fs =>
    match fileBody c flagOffset d f with
    | Sum.inl o => o
    | Sum.inr d' => fileLoop c flagOffset d' fs

/-- The loop context `main` scans with, once the filter expression has compiled to `m`. -/
def loopCtx (env : Env) (a : Args) (m : Message → Bool) : LoopCtx :=
  { HEADER_FRAMING_SIZE := env.HEADER_FRAMING_SIZE, Unmarshal := env.Unmarshal,
    Match := m, flagTail := a.flagTail }

/-- The function `main` (lines 28-135). -/
def main (env : Env) (a : Args) : Outcome :=
  if a.flagMaxMessageSize < MaxUint32 then
    match env.CreateMatcherSpecification a.flagMatch with
    | Except.error e => { term := Termination.exit 2, out := [], stderr := [Diag.fatal e] }
    | Except.ok m =>
      let outErr := if a.flagOutput = "" then none else a.outputOpenErr
      match outErr with
      | some e => { term := Termination.exit 4, out := [], stderr := [Diag.fatal e] }
      | none =>
        fileLoop (loopCtx env a m) a.flagOffset
          { errorCodes := [], err := outErr, stderr := [] } a.files
  else { term := Termination.exit 8, out := [], stderr := [Diag.sizeTooLarge] }

/-! ## Specification-side counts -/

/-- The number of fields of `fields` named `errorCode` whose rendered value is `v`. -/
def countErrorCode (fields : List Field) (v : String) : Nat :=
  fields.countP (fun f => decide (f.Name = some "errorCode" ∧ f.Value = v))

/-- The number of fields of `msg` named `errorCode` whose rendered value is `v`. -/
def errorCodeFields (msg : Message) (v : String) : Nat :=
  countErrorCode msg.Fields v

/-- Every field of `msg` has a name. -/
def allNamed (msg : Message) : Bool :=
  msg.Fields.all (fun f => f.Name.isSome)

/-- The number of fields of `msg` named `errorCode` with value `v` among the
    fields that precede the first field without a name. -/
def countedFields (msg : Message) (v : String) : Nat :=
  countErrorCode (msg.Fields.takeWhile (fun f => f.Name.isSome)) v

/-- The decoded message of a splitter result that is error-free, non-empty,
    decodes and is accepted by the matcher; `none` for every other result. -/
def acceptedMessage (c : LoopCtx) (r : SplitterResult) : Option Message :=
  match r.err with
  | some _ => none
  | none =>
    if r.record = [] then none
    else
      match payload c.HEADER_FRAMING_SIZE r.record with
      | none => none
      | some p =>
        match c.Unmarshal p with
        | none => none
        | some msg => if c.Match msg then some msg else none

/-- What one splitter result adds to the count of `v`. -/
def contribution (c : LoopCtx) (v : String) (r : SplitterResult) : Nat :=
  match acceptedMessage c r with
  | none => 0
  | some msg => countedFields msg v

/-- The pass on `r` falls through to line 124: end-of-stream in tail mode, an
    empty record, or a record that decodes to an accepted message whose fields
    all have names. -/
def fallsThrough (c : LoopCtx) (r : SplitterResult) : Bool :=
  match r.err with
  | some e => decide (e = GoError.EOF) && c.flagTail
  | none =>
    r.record.isEmpty ||
      (match acceptedMessage c r with
       | some msg => allNamed msg
       | none => false)

/-- The number of splitter results the scan of `xs` from `s` consumed. -/
def consumed (c : LoopCtx) (s : ScanState) (xs : List SplitterResult) : Nat :=
  (scanLoop c s xs).1.iters - s.iters

/-! ## A small decoder and matcher for concrete runs -/

/-- A toy field decoder: one byte per field. -/
def demoField (b : Byte) : Option Field :=
  if b.val = 1 then some ⟨some "errorCode", "404"⟩
  else if b.val = 2 then some ⟨some "errorCode", "A"⟩
  else if b.val = 3 then some ⟨some "errorCode", "B"⟩
  else if b.val = 4 then some ⟨some "Hostname", "404"⟩
  else if b.val = 5 then some ⟨some "reject", ""⟩
  else if b.val = 6 then some ⟨none, "404"⟩
  else none

/-- A toy `proto.Unmarshal`: the payload decodes when each of its bytes does. -/
def demoUnmarshal : List Byte → Option Message
  | [] => some ⟨[]⟩
  | b :: rest =>
    match demoField b, demoUnmarshal rest with
    | some f, some m => some ⟨f :: m.Fields⟩
    | _, _ => none

/-- A toy matcher: accepts the messages without a field named `reject`. -/
def demoMatch (m : Message) : Bool :=
  m.Fields.all (fun f => decide (f.Name ≠ some "reject"))

/-- The toy loop context, with the framing size 3 of the heka stream format. -/
def demoCtx (tail : Bool) : LoopCtx :=
  { HEADER_FRAMING_SIZE := 3, Unmarshal := demoUnmarshal, Match := demoMatch, flagTail := tail }

/-- The toy library: every filter expression but `"("` compiles to `demoMatch`. -/
def demoEnv : Env :=
  { HEADER_FRAMING_SIZE := 3, Unmarshal := demoUnmarshal,
    CreateMatcherSpecification := fun e =>
      if e = "(" then Except.error (GoError.other "parse error") else Except.ok demoMatch }

/-- A frame with an empty header around the payload `p`: record separator,
    header length 0, unit separator, payload. -/
def frame (p : List Byte) : List Byte := 30 :: 0 :: 31 :: p

/-- An error-free splitter result carrying `frame p`, with `n` the frame's length. -/
def okFrame (p : List Byte) : SplitterResult :=
  { n := (frame p).length, record := frame p, err := none }

/-- The end-of-stream result `(0, nil, io.EOF)`. -/
def eofResult : SplitterResult := { n := 0, record := [], err := some GoError.EOF }

/-- A stream-error result `(0, nil, err)` with `err` not `io.EOF`. -/
def ioErrResult : SplitterResult := { n := 0, record := [], err := some (GoError.other "read error") }

/-- The scan state of a fresh file at offset 0 with an empty map. -/
def freshScan : ScanState :=
  { errorCodes := [], offset := 0, processed := 0, matched := 0, stderr := [], iters := 0 }

/-- An input file that opens, seeks and gets its splitter, with the given stream. -/
def goodFile (stream : List SplitterResult) : InputFile :=
  { openErr := none, seekErr := none, splitterInitErr := none, stream := stream }

/-- An input file that does not open. -/
def missingFile : InputFile :=
  { openErr := some (GoError.other "no such file"), seekErr := none, splitterInitErr := none,
    stream := [] }

/-- Arguments of a run with the default flags over the given files. -/
def demoArgs (files : List InputFile) : Args :=
  { flagMatch := "TRUE", flagOutput := "", flagTail := false, flagOffset := 0,
    flagMaxMessageSize := 4 * 1024 * 1024, outputOpenErr := none, files := files }

/-- The condition under which lines 105-106 stay in bounds: the record has the
    header-length byte `record[1]`, and that byte plus the framing size does not
    exceed the record's length. -/
def wellFramed (hfs : Nat) (record : List Byte) : Bool :=
  decide (2 ≤ record.length) && decide ((record.getD 1 0).val + hfs ≤ record.length)

/-- The scan of `stream` leaves the loop by a `break`: it neither panics nor is
    still running when the results run out.  (How a scan ends does not depend on
    the state it starts from, see `scanLoop_end_indep`.) -/
def leavesLoop (c : LoopCtx) (stream : List SplitterResult) : Bool :=
  match (scanLoop c freshScan stream).2 with
  | LoopEnd.broke _ => true
  | _ => false

/-- The file opens, seeks and gets its splitter. -/
def setupOk (f : InputFile) : Bool :=
  f.openErr.isNone && f.seekErr.isNone && f.splitterInitErr.isNone

/-! ## The count map -/

theorem CountMap.get_set (m : CountMap) (k k' : String) (v : Nat) :
    (m.set k v).get k' = if k = k' then v else m.get k' := by
  induction m with
  | nil =>
    by_cases h : k = k' <;> simp [CountMap.set, CountMap.get, h]
  | cons e rest ih =>
    obtain ⟨k0, c0⟩ := e
    by_cases h0 : k0 = k
    · subst h0
      by_cases h : k0 = k' <;> simp [CountMap.set, CountMap.get, h]
    · by_cases h : k = k'
      · subst h
        simp [CountMap.set, CountMap.get, h0, ih]
      · by_cases h1 : k0 = k'
        · subst h1
          simp [CountMap.set, CountMap.get, h0, h]
        · simp [CountMap.set, CountMap.get, h0, h, h1, ih]

theorem CountMap.get_incr (m : CountMap) (k k' : String) :
    (m.incr k).get k' = m.get k' + (if k = k' then 1 else 0) := by
  unfold CountMap.incr
  rw [CountMap.get_set]
  by_cases h : k = k'
  · subst h; simp
  · simp [h]

theorem countFields_snd (fields : List Field) (m : CountMap) :
    (countFields m fields).2 = fields.all (fun f => f.Name.isSome) := by
  induction fields generalizing m with
  | nil => simp [countFields]
  | cons f rest ih =>
    rcases hN : f.Name with _ | name
    · simp [countFields, hN]
    · simp [countFields, hN, ih]

theorem countFields_get (fields : List Field) (m : CountMap) (v : String) :
    (countFields m fields).1.get v
      = m.get v + countErrorCode (fields.takeWhile (fun f => f.Name.isSome)) v := by
  induction fields generalizing m with
  | nil => simp [countFields, countErrorCode]
  | cons f rest ih =>
    rcases hN : f.Name with _ | name
    · simp [countFields, hN, countErrorCode, List.takeWhile]
    · have hstep : countFields m (f :: rest)
          = countFields (if name = "errorCode" then m.incr f.Value else m) rest := by
        simp [countFields, hN]
      rw [hstep, ih]
      simp only [List.takeWhile, hN, Option.isSome_some, countErrorCode, List.countP_cons]
      by_cases hn : name = "errorCode"
      · by_cases hv : f.Value = v
        · simp [hn, hv, CountMap.get_incr]; omega
        · simp [hn, hv, CountMap.get_incr]
      · simp [hn]

theorem countedFields_of_allNamed (msg : Message) (v : String) (h : allNamed msg = true) :
    countedFields msg v = errorCodeFields msg v := by
  unfold countedFields errorCodeFields
  unfold allNamed at h
  have : msg.Fields.takeWhile (fun f => f.Name.isSome) = msg.Fields := by
    rw [List.takeWhile_eq_self_iff]
    intro f hf
    exact (List.all_eq_true.mp h) f hf
  rw [this]

/-! ## One pass through the loop body -/

theorem corruptionCheck_fields (s : ScanState) (r : SplitterResult) :
    (corruptionCheck s r).errorCodes = s.errorCodes ∧ (corruptionCheck s r).processed = s.processed
      ∧ (corruptionCheck s r).matched = s.matched ∧ (corruptionCheck s r).iters = s.iters
      ∧ (corruptionCheck s r).offset = s.offset := by
  unfold corruptionCheck
  split <;> simp

theorem loopBody_iters (c : LoopCtx) (s : ScanState) (r : SplitterResult) :
    (loopBody c s r).1.iters = s.iters + 1 := by
  have h := (corruptionCheck_fields { s with iters := s.iters + 1 } r).2.2.2.1
  have hE := (corruptionCheck_fields { s with iters := s.iters + 1 } r).1
  rcases he : r.err with _ | e
  · by_cases hr : 0 < r.record.length
    · rcases hp : payload c.HEADER_FRAMING_SIZE r.record with _ | p
      · simp [loopBody, atPayload, he, hr, hp, h]
      · rcases hu : c.Unmarshal p with _ | msg
        · simp [loopBody, decodePass, atPayload, he, hr, hp, hu, h]
        · by_cases hm : c.Match msg
          · rcases hc : countFields s.errorCodes msg.Fields with ⟨m, b⟩
            cases b <;>
              simp [loopBody, decodePass, atPayload, he, hr, hp, hu, hm, advance, h, hE, hc]
          · simp [loopBody, decodePass, atPayload, he, hr, hp, hu, hm, h]
    · simp [loopBody, he, hr, advance, h]
  · by_cases hE' : e = GoError.EOF
    · by_cases ht : c.flagTail <;> simp [loopBody, he, hE', ht, advance, h]
    · simp [loopBody, he, hE', h]

theorem loopBody_errorCodes (c : LoopCtx) (s : ScanState) (r : SplitterResult) :
    (loopBody c s r).1.errorCodes
      = match acceptedMessage c r with
        | none => s.errorCodes
        | some msg => (countFields s.errorCodes msg.Fields).1 := by
  have h := (corruptionCheck_fields { s with iters := s.iters + 1 } r).1
  rcases he : r.err with _ | e
  · by_cases hr : r.record = []
    · simp [loopBody, acceptedMessage, he, hr, advance, h]
    · have hlen : 0 < r.record.length := List.length_pos.mpr hr
      rcases hp : payload c.HEADER_FRAMING_SIZE r.record with _ | p
      · simp [loopBody, atPayload, acceptedMessage, he, hr, hlen, hp, h]
      · rcases hu : c.Unmarshal p with _ | msg
        · simp [loopBody, decodePass, atPayload, acceptedMessage, he, hr, hlen, hp, hu, h]
        · by_cases hm : c.Match msg
          · rcases hc : countFields s.errorCodes msg.Fields with ⟨m, b⟩
            cases b <;>
              simp [loopBody, decodePass, atPayload, acceptedMessage, he, hr, hlen, hp, hu, hm,
                advance, h, hc]
          · simp [loopBody, decodePass, atPayload, acceptedMessage, he, hr, hlen, hp, hu, hm, h]
  · by_cases hE : e = GoError.EOF
    · by_cases ht : c.flagTail <;> simp [loopBody, acceptedMessage, he, hE, ht, advance, h]
    · simp [loopBody, acceptedMessage, he, hE, h]

theorem loopBody_processed (c : LoopCtx) (s : ScanState) (r : SplitterResult) :
    (loopBody c s r).1.processed
      = s.processed + (if r.err = none ∧ r.record ≠ [] then 1 else 0) := by
  have h := (corruptionCheck_fields { s with iters := s.iters + 1 } r).2.1
  have hE := (corruptionCheck_fields { s with iters := s.iters + 1 } r).1
  rcases he : r.err with _ | e
  · by_cases hr : r.record = []
    · simp [loopBody, he, hr, advance, h]
    · have hlen : 0 < r.record.length := List.length_pos.mpr hr
      rcases hp : payload c.HEADER_FRAMING_SIZE r.record with _ | p
      · simp [loopBody, atPayload, he, hr, hlen, hp, h]
      · rcases hu : c.Unmarshal p with _ | msg
        · simp [loopBody, decodePass, atPayload, he, hr, hlen, hp, hu, h]
        · by_cases hm : c.Match msg
          · rcases hc : countFields s.errorCodes msg.Fields with ⟨m, b⟩
            cases b <;>
              simp [loopBody, decodePass, atPayload, he, hr, hlen, hp, hu, hm, advance, h, hE, hc]
          · simp [loopBody, decodePass, atPayload, he, hr, hlen, hp, hu, hm, h]
  · by_cases hE' : e = GoError.EOF
    · by_cases ht : c.flagTail <;> simp [loopBody, he, hE', ht, advance, h]
    · simp [loopBody, he, hE', h]

theorem loopBody_matched (c : LoopCtx) (s : ScanState) (r : SplitterResult) :
    (loopBody c s r).1.matched
      = s.matched + (if (acceptedMessage c r).isSome then 1 else 0) := by
  have h := (corruptionCheck_fields { s with iters := s.iters + 1 } r).2.2.1
  have hE := (corruptionCheck_fields { s with iters := s.iters + 1 } r).1
  rcases he : r.err with _ | e
  · by_cases hr : r.record = []
    · simp [loopBody, acceptedMessage, he, hr, advance, h]
    · have hlen : 0 < r.record.length := List.length_pos.mpr hr
      rcases hp : payload c.HEADER_FRAMING_SIZE r.record with _ | p
      · simp [loopBody, atPayload, acceptedMessage, he, hr, hlen, hp, h]
      · rcases hu : c.Unmarshal p with _ | msg
        · simp [loopBody, decodePass, atPayload, acceptedMessage, he, hr, hlen, hp, hu, h]
        · by_cases hm : c.Match msg
          · rcases hc : countFields s.errorCodes msg.Fields with ⟨m, b⟩
            cases b <;>
              simp [loopBody, decodePass, atPayload, acceptedMessage, he, hr, hlen, hp, hu, hm,
                advance, h, hE, hc]
          · simp [loopBody, decodePass, atPayload, acceptedMessage, he, hr, hlen, hp, hu, hm, h]
  · by_cases hE' : e = GoError.EOF
    · by_cases ht : c.flagTail <;> simp [loopBody, acceptedMessage, he, hE', ht, advance, h]
    · simp [loopBody, acceptedMessage, he, hE', h]

/-- The offset after a pass: `n` is added, as an `int64`, when the pass falls
    through to line 124 and the offset is left as it was otherwise. -/
theorem loopBody_offset (c : LoopCtx) (s : ScanState) (r : SplitterResult) :
    (loopBody c s r).1.offset
      = if fallsThrough c r = true then wrapInt64 (s.offset + r.n) else s.offset := by
  have h := (corruptionCheck_fields { s with iters := s.iters + 1 } r).2.2.2.2
  have hE := (corruptionCheck_fields { s with iters := s.iters + 1 } r).1
  rcases he : r.err with _ | e
  · by_cases hr : r.record = []
    · simp [loopBody, fallsThrough, acceptedMessage, he, hr, advance, h]
    · have hlen : 0 < r.record.length := List.length_pos.mpr hr
      rcases hp : payload c.HEADER_FRAMING_SIZE r.record with _ | p
      · simp [loopBody, atPayload, fallsThrough, acceptedMessage, he, hr, hlen, hp, h]
      · rcases hu : c.Unmarshal p with _ | msg
        · simp [loopBody, decodePass, atPayload, fallsThrough, acceptedMessage, he, hr, hlen, hp,
            hu, h]
        · by_cases hm : c.Match msg
          · have hs := countFields_snd msg.Fields s.errorCodes
            rcases hc : countFields s.errorCodes msg.Fields with ⟨m, b⟩
            rw [hc] at hs
            simp only at hs
            have hall : allNamed msg = b := hs.symm
            cases b <;>
              simp [loopBody, decodePass, atPayload, fallsThrough, acceptedMessage, he, hr, hlen,
                hp, hu, hm, advance, h, hE, hc, hall]
          · simp [loopBody, decodePass, atPayload, fallsThrough, acceptedMessage, he, hr, hlen, hp,
              hu, hm, h]
  · by_cases hE' : e = GoError.EOF
    · by_cases ht : c.flagTail <;> simp [loopBody, fallsThrough, he, hE', ht, advance, h]
    · simp [loopBody, fallsThrough, he, hE', h]

/-- How a pass ends depends on the context and on the record and the error of
    the splitter result only: not on the state, not on `n`. -/
theorem loopBody_ctl (c : LoopCtx) (s s' : ScanState) (r r' : SplitterResult)
    (hrec : r.record = r'.record) (herr : r.err = r'.err) :
    (loopBody c s r).2 = (loopBody c s' r').2 := by
  rcases he : r.err with _ | e
  · have he' : r'.err = none := by rw [← herr, he]
    by_cases hr : 0 < r.record.length
    · have hr' : 0 < r'.record.length := by rw [← hrec]; exact hr
      rcases hp : payload c.HEADER_FRAMING_SIZE r.record with _ | p
      · have hp' : payload c.HEADER_FRAMING_SIZE r'.record = none := by rw [← hrec, hp]
        simp [loopBody, he, he', hr, hr', hp, hp']
      · have hp' : payload c.HEADER_FRAMING_SIZE r'.record = some p := by rw [← hrec, hp]
        rcases hu : c.Unmarshal p with _ | msg
        · simp [loopBody, decodePass, he, he', hr, hr', hp, hp', hu]
        · by_cases hm : c.Match msg
          · have h1 := countFields_snd msg.Fields (atPayload s r).errorCodes
            have h2 := countFields_snd msg.Fields (atPayload s' r').errorCodes
            rcases hc : countFields (atPayload s r).errorCodes msg.Fields with ⟨m, b⟩
            rcases hc' : countFields (atPayload s' r').errorCodes msg.Fields with ⟨m', b'⟩
            rw [hc] at h1
            rw [hc'] at h2
            simp only at h1 h2
            have hb : b = b' := by rw [h1, h2]
            subst hb
            cases b <;> simp [loopBody, decodePass, he, he', hr, hr', hp, hp', hu, hm, hc, hc']
          · simp [loopBody, decodePass, he, he', hr, hr', hp, hp', hu, hm]
    · have hr' : ¬ 0 < r'.record.length := by rw [← hrec]; exact hr
      simp [loopBody, he, he', hr, hr']
  · have he' : r'.err = some e := by rw [← herr, he]
    by_cases hE : e = GoError.EOF
    · by_cases ht : c.flagTail <;> simp [loopBody, he, he', hE, ht]
    · simp [loopBody, he, he', hE]

theorem acceptedMessage_congr (c : LoopCtx) (r r' : SplitterResult)
    (hrec : r.record = r'.record) (herr : r.err = r'.err) :
    acceptedMessage c r = acceptedMessage c r' := by
  unfold acceptedMessage
  rw [hrec, herr]

theorem loopBody_get (c : LoopCtx) (s : ScanState) (r : SplitterResult) (v : String) :
    (loopBody c s r).1.errorCodes.get v = s.errorCodes.get v + contribution c v r := by
  rw [loopBody_errorCodes]
  unfold contribution
  cases acceptedMessage c r with
  | none => simp
  | some msg => simp [countFields_get, countedFields]

/-! ## The scan of a list of splitter results -/

theorem scanLoop_nil (c : LoopCtx) (s : ScanState) : scanLoop c s [] = (s, LoopEnd.running) := rfl

theorem scanLoop_next (c : LoopCtx) (s s' : ScanState) (r : SplitterResult)
    (rs : List SplitterResult) (h : loopBody c s r = (s', Ctl.next)) :
    scanLoop c s (r :: rs) = scanLoop c s' rs := by
  simp [scanLoop, h]

theorem scanLoop_brk (c : LoopCtx) (s s' : ScanState) (r : SplitterResult) (e : GoError)
    (rs : List SplitterResult) (h : loopBody c s r = (s', Ctl.brk e)) :
    scanLoop c s (r :: rs) = (s', LoopEnd.broke e) := by
  simp [scanLoop, h]

theorem scanLoop_panic (c : LoopCtx) (s s' : ScanState) (r : SplitterResult)
    (rs : List SplitterResult) (h : loopBody c s r = (s', Ctl.panic)) :
    scanLoop c s (r :: rs) = (s', LoopEnd.panicked) := by
  simp [scanLoop, h]

theorem scanLoop_iters_ge (c : LoopCtx) (xs : List SplitterResult) (s : ScanState) :
    s.iters ≤ (scanLoop c s xs).1.iters := by
  induction xs generalizing s with
  | nil => simp [scanLoop]
  | cons r rs ih =>
    have hi := loopBody_iters c s r
    rcases hb : loopBody c s r with ⟨s', ctl⟩
    rw [hb] at hi
    simp only at hi
    cases ctl with
    | next =>
      rw [scanLoop_next c s s' r rs hb]
      have := ih s'
      omega
    | brk e => rw [scanLoop_brk c s s' r e rs hb]; simp only; omega
    | panic => rw [scanLoop_panic c s s' r rs hb]; simp only; omega

theorem consumed_nil (c : LoopCtx) (s : ScanState) : consumed c s [] = 0 := by
  simp [consumed, scanLoop]

theorem consumed_cons_next (c : LoopCtx) (s s' : ScanState) (r : SplitterResult)
    (rs : List SplitterResult) (h : loopBody c s r = (s', Ctl.next)) :
    consumed c s (r :: rs) = consumed c s' rs + 1 := by
  have hi := loopBody_iters c s r
  rw [h] at hi
  simp only at hi
  have hge := scanLoop_iters_ge c rs s'
  unfold consumed
  rw [scanLoop_next c s s' r rs h]
  omega

theorem consumed_cons_stop (c : LoopCtx) (s : ScanState) (r : SplitterResult)
    (rs : List SplitterResult) (h : (loopBody c s r).2 ≠ Ctl.next) :
    consumed c s (r :: rs) = 1 := by
  have hi := loopBody_iters c s r
  rcases hb : loopBody c s r with ⟨s', ctl⟩
  rw [hb] at hi h
  simp only at hi
  unfold consumed
  cases ctl with
  | next => exact absurd rfl h
  | brk e => rw [scanLoop_brk c s s' r e rs hb]; simp only; omega
  | panic => rw [scanLoop_panic c s s' r rs hb]; simp only; omega

theorem consumed_le (c : LoopCtx) (xs : List SplitterResult) (s : ScanState) :
    consumed c s xs ≤ xs.length := by
  induction xs generalizing s with
  | nil => simp [consumed_nil]
  | cons r rs ih =>
    rcases hb : loopBody c s r with ⟨s', ctl⟩
    cases ctl with
    | next =>
      rw [consumed_cons_next c s s' r rs hb]
      have := ih s'
      simp only [List.length_cons]
      omega
    | brk e =>
      rw [consumed_cons_stop c s r rs (by rw [hb]; simp)]
      simp
    | panic =>
      rw [consumed_cons_stop c s r rs (by rw [hb]; simp)]
      simp

theorem scanLoop_get (c : LoopCtx) (v : String) (xs : List SplitterResult) (s : ScanState) :
    (scanLoop c s xs).1.errorCodes.get v
      = s.errorCodes.get v + ((xs.take (consumed c s xs)).map (contribution c v)).sum := by
  induction xs generalizing s with
  | nil => simp [scanLoop]
  | cons r rs ih =>
    have hg := loopBody_get c s r v
    rcases hb : loopBody c s r with ⟨s', ctl⟩
    rw [hb] at hg
    simp only at hg
    cases ctl with
    | next =>
      rw [consumed_cons_next c s s' r rs hb, scanLoop_next c s s' r rs hb, ih s', hg]
      simp [List.take_succ_cons]
      omega
    | brk e =>
      rw [consumed_cons_stop c s r rs (by rw [hb]; simp), scanLoop_brk c s s' r e rs hb]
      simp [hg]
    | panic =>
      rw [consumed_cons_stop c s r rs (by rw [hb]; simp), scanLoop_panic c s s' r rs hb]
      simp [hg]

theorem scanLoop_append (c : LoopCtx) (xs ys : List SplitterResult) (s : ScanState) :
    scanLoop c s (xs ++ ys)
      = if (scanLoop c s xs).2 = LoopEnd.running then scanLoop c (scanLoop c s xs).1 ys
        else scanLoop c s xs := by
  induction xs generalizing s with
  | nil => simp [scanLoop]
  | cons r rs ih =>
    rcases hb : loopBody c s r with ⟨s', ctl⟩
    cases ctl with
    | next =>
      rw [List.cons_append, scanLoop_next c s s' r _ hb, scanLoop_next c s s' r rs hb]
      exact ih s'
    | brk e =>
      rw [List.cons_append, scanLoop_brk c s s' r e _ hb, scanLoop_brk c s s' r e rs hb]
      simp
    | panic =>
      rw [List.cons_append, scanLoop_panic c s s' r _ hb, scanLoop_panic c s s' r rs hb]
      simp

/-- Two scans whose start states agree on the map and the two counters, over
    result lists that agree on every record and every error, end alike and
    agree on the map, the counters and the number of passes. -/
theorem scanLoop_agree (c : LoopCtx) (xs : List SplitterResult) :
    ∀ (ys : List SplitterResult) (s t : ScanState),
      xs.map (fun r => (r.record, r.err)) = ys.map (fun r => (r.record, r.err)) →
      s.errorCodes = t.errorCodes → s.processed = t.processed → s.matched = t.matched →
      (scanLoop c s xs).1.errorCodes = (scanLoop c t ys).1.errorCodes
        ∧ (scanLoop c s xs).1.processed = (scanLoop c t ys).1.processed
        ∧ (scanLoop c s xs).1.matched = (scanLoop c t ys).1.matched
        ∧ (scanLoop c s xs).2 = (scanLoop c t ys).2
        ∧ consumed c s xs = consumed c t ys := by
  induction xs with
  | nil =>
    intro ys s t hmap h1 h2 h3
    cases ys with
    | nil => simp [scanLoop, consumed, h1, h2, h3]
    | cons y ys => simp at hmap
  | cons r rs ih =>
    intro ys s t hmap h1 h2 h3
    cases ys with
    | nil => simp at hmap
    | cons y ys =>
      simp only [List.map_cons, List.cons.injEq, Prod.mk.injEq] at hmap
      obtain ⟨⟨hrec, herr⟩, htail⟩ := hmap
      have hacc := acceptedMessage_congr c r y hrec herr
      have hctl := loopBody_ctl c s t r y hrec herr
      have e1 : (loopBody c s r).1.errorCodes = (loopBody c t y).1.errorCodes := by
        rw [loopBody_errorCodes, loopBody_errorCodes, hacc, h1]
      have e2 : (loopBody c s r).1.processed = (loopBody c t y).1.processed := by
        rw [loopBody_processed, loopBody_processed, hrec, herr, h2]
      have e3 : (loopBody c s r).1.matched = (loopBody c t y).1.matched := by
        rw [loopBody_matched, loopBody_matched, hacc, h3]
      rcases hb : loopBody c s r with ⟨s', ctl⟩
      rcases hb' : loopBody c t y with ⟨t', ctl'⟩
      rw [hb, hb'] at hctl e1 e2 e3
      simp only at hctl e1 e2 e3
      subst hctl
      cases ctl with
      | next =>
        rw [scanLoop_next c s s' r rs hb, scanLoop_next c t t' y ys hb',
          consumed_cons_next c s s' r rs hb, consumed_cons_next c t t' y ys hb']
        obtain ⟨a1, a2, a3, a4, a5⟩ := ih ys s' t' htail e1 e2 e3
        exact ⟨a1, a2, a3, a4, by rw [a5]⟩
      | brk e =>
        rw [scanLoop_brk c s s' r e rs hb, scanLoop_brk c t t' y e ys hb',
          consumed_cons_stop c s r rs (by rw [hb]; simp),
          consumed_cons_stop c t y ys (by rw [hb']; simp)]
        exact ⟨e1, e2, e3, rfl, rfl⟩
      | panic =>
        rw [scanLoop_panic c s s' r rs hb, scanLoop_panic c t t' y ys hb',
          consumed_cons_stop c s r rs (by rw [hb]; simp),
          consumed_cons_stop c t y ys (by rw [hb']; simp)]
        exact ⟨e1, e2, e3, rfl, rfl⟩

theorem scanLoop_iters_eq (c : LoopCtx) (xs : List SplitterResult) (s : ScanState) :
    (scanLoop c s xs).1.iters = s.iters + consumed c s xs := by
  have := scanLoop_iters_ge c xs s
  unfold consumed
  omega

theorem payload_eq (hfs : Nat) (record : List Byte) :
    payload hfs record
      = if wellFramed hfs record then some (record.drop ((record.getD 1 0).val + hfs)) else none := by
  unfold payload wellFramed
  rcases record with _ | ⟨a, _ | ⟨b, rest⟩⟩
  · simp
  · simp
  · by_cases h : b.val + hfs ≤ rest.length + 1 + 1 <;> simp [h]

theorem loopBody_eof_tail (c : LoopCtx) (s : ScanState) (r : SplitterResult)
    (ht : c.flagTail = true) (he : r.err = some GoError.EOF) :
    (loopBody c s r).2 = Ctl.next ∧ (loopBody c s r).1.errorCodes = s.errorCodes
      ∧ (loopBody c s r).1.processed = s.processed ∧ (loopBody c s r).1.matched = s.matched := by
  have hacc : acceptedMessage c r = none := by simp [acceptedMessage, he]
  refine ⟨by simp [loopBody, he, ht], ?_, ?_, ?_⟩
  · rw [loopBody_errorCodes, hacc]
  · rw [loopBody_processed]; simp [he]
  · rw [loopBody_matched, hacc]; simp

theorem loopBody_eof_notail (c : LoopCtx) (s : ScanState) (r : SplitterResult)
    (ht : c.flagTail = false) (he : r.err = some GoError.EOF) :
    (loopBody c s r).2 = Ctl.brk GoError.EOF := by
  simp [loopBody, he, ht]

theorem scanLoop_eof_notail (c : LoopCtx) (s : ScanState) (r : SplitterResult)
    (rs : List SplitterResult) (ht : c.flagTail = false) (he : r.err = some GoError.EOF) :
    scanLoop c s (r :: rs) = ((loopBody c s r).1, LoopEnd.broke GoError.EOF) :=
  scanLoop_brk c s _ r GoError.EOF rs (Prod.ext rfl (loopBody_eof_notail c s r ht he))

/-- A well-framed, non-empty, error-free record reaches the decoder: the rest
    of the pass is `decodePass` on the payload `record[headerLen:]`. -/
theorem loopBody_of_wellFramed (c : LoopCtx) (s : ScanState) (r : SplitterResult)
    (herr : r.err = none) (hrec : r.record ≠ [])
    (hwf : wellFramed c.HEADER_FRAMING_SIZE r.record = true) :
    loopBody c s r
      = decodePass c (atPayload s r) r
          (r.record.drop ((r.record.getD 1 0).val + c.HEADER_FRAMING_SIZE)) := by
  have hlen : 0 < r.record.length := List.length_pos.mpr hrec
  have hp := payload_eq c.HEADER_FRAMING_SIZE r.record
  rw [hwf] at hp
  simp only [if_true] at hp
  unfold loopBody
  simp only [herr, hlen, if_true, hp]

/-- An error-free record that is empty, or is well framed and, if it decodes to
    an accepted message, has a name on every field, does not stop the loop. -/
theorem loopBody_next_of_wellFormed (c : LoopCtx) (s : ScanState) (r : SplitterResult)
    (herr : r.err = none)
    (hwf : r.record ≠ [] → wellFramed c.HEADER_FRAMING_SIZE r.record = true)
    (hnamed : ∀ msg, acceptedMessage c r = some msg → allNamed msg = true) :
    (loopBody c s r).2 = Ctl.next := by
  by_cases hr : r.record = []
  · simp [loopBody, herr, hr]
  · have hlen : 0 < r.record.length := List.length_pos.mpr hr
    have hp := payload_eq c.HEADER_FRAMING_SIZE r.record
    rw [hwf hr] at hp
    simp only [if_true] at hp
    obtain ⟨p, hp⟩ : ∃ p, payload c.HEADER_FRAMING_SIZE r.record = some p := ⟨_, hp⟩
    rcases hu : c.Unmarshal p with _ | msg
    · simp [loopBody, decodePass, herr, hlen, hp, hu]
    · by_cases hm : c.Match msg
      · have hacc : acceptedMessage c r = some msg := by
          simp [acceptedMessage, herr, hr, hp, hu, hm]
        have hall := hnamed msg hacc
        have hs := countFields_snd msg.Fields (atPayload s r).errorCodes
        rcases hc : countFields (atPayload s r).errorCodes msg.Fields with ⟨m, b⟩
        rw [hc] at hs
        simp only at hs
        unfold allNamed at hall
        rw [hall] at hs
        subst hs
        simp [loopBody, decodePass, herr, hlen, hp, hu, hm, hc]
      · simp [loopBody, decodePass, herr, hlen, hp, hu, hm]

theorem loopBody_panic_of_not_wellFramed (c : LoopCtx) (s : ScanState) (r : SplitterResult)
    (herr : r.err = none) (hrec : r.record ≠ [])
    (hwf : wellFramed c.HEADER_FRAMING_SIZE r.record = false) :
    (loopBody c s r).2 = Ctl.panic := by
  have hlen : 0 < r.record.length := List.length_pos.mpr hrec
  have hp := payload_eq c.HEADER_FRAMING_SIZE r.record
  rw [hwf] at hp
  simp only [Bool.false_eq_true, if_false] at hp
  simp [loopBody, herr, hlen, hp]

/-- A pass on a result whose error is not `io.EOF` leaves the loop by `break`
    (line 100), in tail mode or not, after the corruption check alone. -/
theorem loopBody_stream_error (c : LoopCtx) (s : ScanState) (n : Nat) (rec : List Byte)
    (msg : String) :
    loopBody c s ⟨n, rec, some (GoError.other msg)⟩
      = (corruptionCheck { s with iters := s.iters + 1 } ⟨n, rec, some (GoError.other msg)⟩,
          Ctl.brk (GoError.other msg)) := by
  simp [loopBody]

/-- The counters after the scan of error-free results that the loop passes
    without a panic, followed by end-of-stream, tail mode off, from any state. -/
theorem scanLoop_counters (c : LoopCtx) (e : SplitterResult) (ht : c.flagTail = false)
    (he : e.err = some GoError.EOF) (xs : List SplitterResult) :
    ∀ (s : ScanState),
      (∀ r ∈ xs, r.err = none
        ∧ (r.record ≠ [] → wellFramed c.HEADER_FRAMING_SIZE r.record = true)
        ∧ (∀ msg, acceptedMessage c r = some msg → allNamed msg = true)) →
      (scanLoop c s (xs ++ [e])).2 = LoopEnd.broke GoError.EOF
        ∧ (scanLoop c s (xs ++ [e])).1.processed
            = s.processed + xs.countP (fun r => decide (r.record ≠ []))
        ∧ (scanLoop c s (xs ++ [e])).1.matched
            = s.matched + xs.countP (fun r => (acceptedMessage c r).isSome) := by
  induction xs with
  | nil =>
    intro s _
    have hacc : acceptedMessage c e = none := by simp [acceptedMessage, he]
    rw [List.nil_append, scanLoop_eof_notail c s e [] ht he]
    refine ⟨rfl, ?_, ?_⟩
    · simp only [loopBody_processed]; simp [he]
    · simp only [loopBody_matched, hacc]; simp
  | cons r rs ih =>
    intro s h
    obtain ⟨herr, hwf, hnamed⟩ := h r (List.mem_cons_self r rs)
    have hnext := loopBody_next_of_wellFormed c s r herr hwf hnamed
    have hrest := ih (loopBody c s r).1 (fun x hx => h x (List.mem_cons_of_mem r hx))
    rw [List.cons_append, scanLoop_next c s (loopBody c s r).1 r _ (Prod.ext rfl hnext)]
    obtain ⟨a1, a2, a3⟩ := hrest
    refine ⟨a1, ?_, ?_⟩
    · rw [a2, loopBody_processed, List.countP_cons]
      by_cases hr : r.record = []
      · simp [herr, hr]
      · simp [herr, hr]
        omega
    · rw [a3, loopBody_matched, List.countP_cons]
      cases acceptedMessage c r
      · simp
      · simp
        omega

/-- Tail mode on: an end-of-stream result in the middle of the results changes
    neither how the scan ends nor the map nor the two counters. -/
theorem scanLoop_skip_eof (c : LoopCtx) (e : SplitterResult) (ht : c.flagTail = true)
    (he : e.err = some GoError.EOF) (xs ys : List SplitterResult) (s : ScanState) :
    (scanLoop c s (xs ++ e :: ys)).1.errorCodes = (scanLoop c s (xs ++ ys)).1.errorCodes
      ∧ (scanLoop c s (xs ++ e :: ys)).1.processed = (scanLoop c s (xs ++ ys)).1.processed
      ∧ (scanLoop c s (xs ++ e :: ys)).1.matched = (scanLoop c s (xs ++ ys)).1.matched
      ∧ (scanLoop c s (xs ++ e :: ys)).2 = (scanLoop c s (xs ++ ys)).2 := by
  rw [scanLoop_append c xs (e :: ys) s, scanLoop_append c xs ys s]
  by_cases hrun : (scanLoop c s xs).2 = LoopEnd.running
  · simp only [hrun, if_true]
    obtain ⟨h0, h1, h2, h3⟩ := loopBody_eof_tail c (scanLoop c s xs).1 e ht he
    rw [scanLoop_next c (scanLoop c s xs).1 (loopBody c (scanLoop c s xs).1 e).1 e ys
      (Prod.ext rfl h0)]
    obtain ⟨a1, a2, a3, a4, _⟩ := scanLoop_agree c ys ys (loopBody c (scanLoop c s xs).1 e).1
      (scanLoop c s xs).1 rfl h1 h2 h3
    exact ⟨a1, a2, a3, a4⟩
  · simp [hrun]

/-- Tail mode off: the scan ends at the first end-of-stream result at the latest. -/
theorem scanLoop_stop_at_eof (c : LoopCtx) (e : SplitterResult) (ht : c.flagTail = false)
    (he : e.err = some GoError.EOF) (xs ys : List SplitterResult) (s : ScanState) :
    scanLoop c s (xs ++ e :: ys) = scanLoop c s (xs ++ [e])
      ∧ (scanLoop c s (xs ++ e :: ys)).2 ≠ LoopEnd.running := by
  rw [scanLoop_append c xs (e :: ys) s, scanLoop_append c xs [e] s]
  by_cases hrun : (scanLoop c s xs).2 = LoopEnd.running
  · simp only [hrun, if_true]
    rw [scanLoop_eof_notail c _ e ys ht he, scanLoop_eof_notail c _ e [] ht he]
    simp
  · simp [hrun]

/-! ## The loop over the files -/

theorem scanLoop_end_indep (c : LoopCtx) (xs : List SplitterResult) (s t : ScanState) :
    (scanLoop c s xs).2 = (scanLoop c t xs).2 := by
  induction xs generalizing s t with
  | nil => rfl
  | cons r rs ih =>
    have hctl := loopBody_ctl c s t r r rfl rfl
    rcases hb : loopBody c s r with ⟨s', ctl⟩
    rcases hb' : loopBody c t r with ⟨t', ctl'⟩
    rw [hb, hb'] at hctl
    simp only at hctl
    subst hctl
    cases ctl with
    | next => rw [scanLoop_next c s s' r rs hb, scanLoop_next c t t' r rs hb']; exact ih s' t'
    | brk e => rw [scanLoop_brk c s s' r e rs hb, scanLoop_brk c t t' r e rs hb']
    | panic => rw [scanLoop_panic c s s' r rs hb, scanLoop_panic c t t' r rs hb']

theorem scanLoop_of_leavesLoop (c : LoopCtx) (xs : List SplitterResult) (s : ScanState)
    (h : leavesLoop c xs = true) : ∃ e, (scanLoop c s xs).2 = LoopEnd.broke e := by
  unfold leavesLoop at h
  rw [scanLoop_end_indep c xs s freshScan]
  cases hE : (scanLoop c freshScan xs).2 with
  | running => rw [hE] at h; simp at h
  | broke e => exact ⟨e, rfl⟩
  | panicked => rw [hE] at h; simp at h

theorem scanLoop_get_mono (c : LoopCtx) (v : String) (xs : List SplitterResult) (s : ScanState) :
    s.errorCodes.get v ≤ (scanLoop c s xs).1.errorCodes.get v := by
  rw [scanLoop_get]
  omega

theorem setupOk_iff (f : InputFile) :
    setupOk f = true ↔ f.openErr = none ∧ f.seekErr = none ∧ f.splitterInitErr = none := by
  unfold setupOk
  cases f.openErr <;> cases f.seekErr <;> cases f.splitterInitErr <;> simp

/-- A file that is set up and whose scan leaves the loop by `break` on `e`: the
    loop over the files goes on, with the map of the scan and a `nil`
    function-level `err`, whatever `e` is. -/
theorem fileBody_of_broke (c : LoopCtx) (off : Int) (d : DriverState) (f : InputFile)
    (s : ScanState) (e : GoError) (hf : setupOk f = true)
    (hscan : scanLoop c (scanStart off d) f.stream = (s, LoopEnd.broke e)) :
    fileBody c off d f
      = Sum.inr { errorCodes := s.errorCodes, err := none,
                  stderr := s.stderr ++ [Diag.summary s.processed s.matched] } := by
  obtain ⟨h1, h2, h3⟩ := (setupOk_iff f).mp hf
  have hscan' : scanLoop c (scanStart off { d with err := none }) f.stream
      = (s, LoopEnd.broke e) := hscan
  simp [fileBody, makeSplitterRunner, h1, h2, h3, hscan']

theorem fileLoop_cons_inr (c : LoopCtx) (off : Int) (d d' : DriverState) (f : InputFile)
    (fs : List InputFile) (h : fileBody c off d f = Sum.inr d') :
    fileLoop c off d (f :: fs) = fileLoop c off d' fs := by
  simp [fileLoop, h]

theorem fileLoop_cons_inl (c : LoopCtx) (off : Int) (d : DriverState) (o : Outcome)
    (f : InputFile) (fs : List InputFile) (h : fileBody c off d f = Sum.inl o) :
    fileLoop c off d (f :: fs) = o := by
  simp [fileLoop, h]

/-- When every file is set up and every scan leaves its loop, the run returns
    from `main` with status 0 and the report holds, for every value, at least the
    count the map had before these files. -/
theorem fileLoop_completes (c : LoopCtx) (off : Int) (fs : List InputFile) :
    ∀ (d : DriverState), d.err = none →
      (∀ g ∈ fs, setupOk g = true ∧ leavesLoop c g.stream = true) →
      (fileLoop c off d fs).term = Termination.exit 0
        ∧ ∀ v, d.errorCodes.get v ≤ CountMap.get (fileLoop c off d fs).out v := by
  induction fs with
  | nil =>
    intro d hd _
    simp [fileLoop, report, hd]
  | cons f fs ih =>
    intro d _ h
    obtain ⟨hf, hl⟩ := h f (List.mem_cons_self f fs)
    obtain ⟨e, he⟩ := scanLoop_of_leavesLoop c f.stream (scanStart off d) hl
    have hscan : scanLoop c (scanStart off d) f.stream
        = ((scanLoop c (scanStart off d) f.stream).1, LoopEnd.broke e) := Prod.ext rfl he
    rw [fileLoop_cons_inr c off d _ f fs (fileBody_of_broke c off d f _ e hf hscan)]
    obtain ⟨a1, a2⟩ := ih
      { errorCodes := (scanLoop c (scanStart off d) f.stream).1.errorCodes, err := none,
        stderr := (scanLoop c (scanStart off d) f.stream).1.stderr
          ++ [Diag.summary (scanLoop c (scanStart off d) f.stream).1.processed
                (scanLoop c (scanStart off d) f.stream).1.matched] }
      rfl (fun g hg => h g (List.mem_cons_of_mem f hg))
    refine ⟨a1, fun v => le_trans ?_ (a2 v)⟩
    exact scanLoop_get_mono c v f.stream (scanStart off d)

/-- A file that fails to open, after files that are set up and whose scans leave
    their loops: the run ends there with status 3 and nothing written to `out`. -/
theorem fileLoop_open_failure (c : LoopCtx) (off : Int) (f : InputFile) (e : GoError)
    (post : List InputFile) (hopen : f.openErr = some e) (pre : List InputFile) :
    ∀ (d : DriverState),
      (∀ g ∈ pre, setupOk g = true ∧ leavesLoop c g.stream = true) →
      (fileLoop c off d (pre ++ f :: post)).term = Termination.exit 3
        ∧ (fileLoop c off d (pre ++ f :: post)).out = [] := by
  induction pre with
  | nil =>
    intro d _
    simp [fileLoop, fileBody, hopen]
  | cons g gs ih =>
    intro d h
    obtain ⟨hg, hl⟩ := h g (List.mem_cons_self g gs)
    obtain ⟨e', he'⟩ := scanLoop_of_leavesLoop c g.stream (scanStart off d) hl
    have hscan : scanLoop c (scanStart off d) g.stream
        = ((scanLoop c (scanStart off d) g.stream).1, LoopEnd.broke e') := Prod.ext rfl he'
    rw [List.cons_append,
      fileLoop_cons_inr c off d _ g _ (fileBody_of_broke c off d g _ e' hg hscan)]
    exact ih _ (fun x hx => h x (List.mem_cons_of_mem g hx))

/-- The function-level `err` is `nil` whenever the loop over the files goes on,
    so the run never ends with status 6. -/
theorem fileLoop_never_exit_6 (c : LoopCtx) (off : Int) (fs : List InputFile) :
    ∀ (d : DriverState), d.err = none → (fileLoop c off d fs).term ≠ Termination.exit 6 := by
  induction fs with
  | nil =>
    intro d hd
    simp [fileLoop, report, hd]
  | cons f fs ih =>
    intro d _
    rcases hb : fileBody c off d f with o | d'
    · rw [fileLoop_cons_inl c off d o f fs hb]
      unfold fileBody at hb
      rcases h1 : f.openErr with _ | e1
      · rcases h2 : f.seekErr with _ | e2
        · rcases h3 : f.splitterInitErr with _ | e3
          · simp only [h1, h2, h3, makeSplitterRunner] at hb
            rcases hs : scanLoop c (scanStart off { d with err := none }) f.stream with ⟨s, en⟩
            rw [hs] at hb
            cases en with
            | running => simp at hb; rw [← hb]; simp
            | broke e => simp at hb
            | panicked => simp at hb; rw [← hb]; simp
          · simp [h1, h2, h3, makeSplitterRunner] at hb; rw [← hb]; simp
        · simp [h1, h2] at hb; rw [← hb]; simp
      · simp [h1] at hb; rw [← hb]; simp
    · rw [fileLoop_cons_inr c off d d' f fs hb]
      apply ih
      unfold fileBody at hb
      rcases h1 : f.openErr with _ | e1
      · rcases h2 : f.seekErr with _ | e2
        · rcases h3 : f.splitterInitErr with _ | e3
          · simp only [h1, h2, h3, makeSplitterRunner] at hb
            rcases hs : scanLoop c (scanStart off { d with err := none }) f.stream with ⟨s, en⟩
            rw [hs] at hb
            cases en with
            | running => simp at hb
            | broke e => simp at hb; rw [← hb]
            | panicked => simp at hb
          · simp [h1, h2, h3, makeSplitterRunner] at hb
        · simp [h1, h2] at hb
      · simp [h1] at hb

theorem main_of_config_ok (env : Env) (a : Args) (m : Message → Bool)
    (hsize : a.flagMaxMessageSize < MaxUint32)
    (hmatch : env.CreateMatcherSpecification a.flagMatch = Except.ok m)
    (hout : a.flagOutput = "" ∨ a.outputOpenErr = none) :
    main env a = fileLoop (loopCtx env a m) a.flagOffset
      { errorCodes := [], err := none, stderr := [] } a.files := by
  unfold main
  rcases hout with h | h
  · simp [hsize, hmatch, h]
  · by_cases h' : a.flagOutput = "" <;> simp [hsize, hmatch, h, h']

theorem consumed_of_running (c : LoopCtx) (xs : List SplitterResult) (s : ScanState) :
    (scanLoop c s xs).2 = LoopEnd.running → consumed c s xs = xs.length := by
  induction xs generalizing s with
  | nil => intro _; simp [consumed_nil]
  | cons r rs ih =>
    intro h
    rcases hb : loopBody c s r with ⟨s', ctl⟩
    cases ctl with
    | next =>
      rw [scanLoop_next c s s' r rs hb] at h
      rw [consumed_cons_next c s s' r rs hb, ih s' h]
      simp
    | brk e => rw [scanLoop_brk c s s' r e rs hb] at h; simp at h
    | panic => rw [scanLoop_panic c s s' r rs hb] at h; simp at h

/-! ## The claims -/

/-- C1 (the code departs from the claim): a pass that ends in one of the two
    `continue` statements leaves `offset` as it was although the splitter
    consumed `n = 4` bytes: after a decode failure, and after a record the
    matcher rejects.  Over the three results below the consumed bytes sum to
    12 and the offset ends at 4.  In general a pass adds `n` to the offset when
    it falls through to line 124 (end-of-stream in tail mode, an empty record,
    an accepted record whose fields all have names) and leaves it otherwise. -/
theorem C1_offset_not_advanced_on_continue :
    (okFrame [255]).n = 4
      ∧ (demoCtx false).Unmarshal [255] = none
      ∧ loopBody (demoCtx false) freshScan (okFrame [255])
          = ({ freshScan with processed := 1, iters := 1, stderr := [Diag.unmarshalError 0] },
              Ctl.next)
      ∧ (okFrame [5]).n = 4
      ∧ loopBody (demoCtx false) freshScan (okFrame [5])
          = ({ freshScan with processed := 1, iters := 1 }, Ctl.next)
      ∧ (loopBody (demoCtx false) freshScan (okFrame [1])).1.offset = 4
      ∧ (scanLoop (demoCtx false) freshScan [okFrame [255], okFrame [5], okFrame [1]]).1.offset = 4
      ∧ ∀ (c : LoopCtx) (s : ScanState) (r : SplitterResult),
          (loopBody c s r).1.offset
            = if fallsThrough c r = true then wrapInt64 (s.offset + r.n) else s.offset :=
  ⟨by decide, by decide, by decide, by decide, by decide, by decide, by decide,
    loopBody_offset⟩

/-- C2 (counterexample): a record that is error-free, non-empty, decodes and is
    accepted, whose message has a field without a name before its `errorCode`
    field `A`: the pass panics on line 118 at the nameless field and `A` is
    never counted, where the claim counts it once.  With the nameless field
    between the `errorCode` fields `A` and `B`, `A` is counted and `B` is not. -/
theorem C2_counterexample :
    acceptedMessage (demoCtx false) (okFrame [6, 2])
        = some ⟨[⟨none, "404"⟩, ⟨some "errorCode", "A"⟩]⟩
      ∧ errorCodeFields ⟨[⟨none, "404"⟩, ⟨some "errorCode", "A"⟩]⟩ "A" = 1
      ∧ scanLoop (demoCtx false) freshScan [okFrame [6, 2]]
          = ({ freshScan with processed := 1, matched := 1, iters := 1 }, LoopEnd.panicked)
      ∧ CountMap.get (scanLoop (demoCtx false) freshScan [okFrame [6, 2]]).1.errorCodes "A" = 0
      ∧ errorCodeFields
          ⟨[⟨some "errorCode", "A"⟩, ⟨none, "404"⟩, ⟨some "errorCode", "B"⟩]⟩ "B" = 1
      ∧ scanLoop (demoCtx false) freshScan [okFrame [2, 6, 3]]
          = ({ freshScan with errorCodes := [("A", 1)], processed := 1, matched := 1, iters := 1 },
              LoopEnd.panicked) := by
  decide

/-- C2 (amended): after the scan of any list of splitter results from any state,
    the map gives every string `v` its count before the scan plus, summed over
    the results the loop consumed, the number of fields named `errorCode` with
    value `v` of each record that is error-free, non-empty, decodes and is
    accepted by the matcher, counting in each message the fields that precede
    its first field without a name; these are all its fields when every field
    has a name.  Two accepted records with `errorCode` 404 give `404 -> 2`; one
    record with the `errorCode` fields `A` and `B` gives `A -> 1`, `B -> 1`; a
    named field of another name adds nothing. -/
theorem C2_errorCodes_count_matching_fields :
    (∀ (c : LoopCtx) (s : ScanState) (xs : List SplitterResult) (v : String),
      (scanLoop c s xs).1.errorCodes.get v
        = s.errorCodes.get v + ((xs.take (consumed c s xs)).map (contribution c v)).sum)
    ∧ (∀ (msg : Message) (v : String),
        allNamed msg = true → countedFields msg v = errorCodeFields msg v)
    ∧ (∀ (c : LoopCtx) (s : ScanState) (xs : List SplitterResult),
        consumed c s xs ≤ xs.length
          ∧ ((scanLoop c s xs).2 = LoopEnd.running → consumed c s xs = xs.length))
    ∧ (scanLoop (demoCtx false) freshScan [okFrame [1], okFrame [1], eofResult]).1.errorCodes
        = [("404", 2)]
    ∧ (scanLoop (demoCtx false) freshScan [okFrame [2, 3], eofResult]).1.errorCodes
        = [("A", 1), ("B", 1)]
    ∧ (scanLoop (demoCtx false) freshScan [okFrame [4], eofResult]).1.errorCodes = [] := by
  exact ⟨fun c s xs v => scanLoop_get c v xs s, countedFields_of_allNamed,
    fun c s xs => ⟨consumed_le c xs s, consumed_of_running c xs s⟩,
    by decide, by decide, by decide⟩

/-- Witness for the amended C2: a message with the `errorCode` fields `A` and
    `B`, both named, and a scan that runs on after its record. -/
theorem C2_errorCodes_count_matching_fields_witness :
    allNamed ⟨[⟨some "errorCode", "A"⟩, ⟨some "errorCode", "B"⟩]⟩ = true
      ∧ countedFields ⟨[⟨some "errorCode", "A"⟩, ⟨some "errorCode", "B"⟩]⟩ "A"
          = errorCodeFields ⟨[⟨some "errorCode", "A"⟩, ⟨some "errorCode", "B"⟩]⟩ "A"
      ∧ (scanLoop (demoCtx false) freshScan [okFrame [2, 3]]).2 = LoopEnd.running
      ∧ consumed (demoCtx false) freshScan [okFrame [2, 3]] = [okFrame [2, 3]].length :=
  ⟨by decide,
    C2_errorCodes_count_matching_fields.2.1
      ⟨[⟨some "errorCode", "A"⟩, ⟨some "errorCode", "B"⟩]⟩ "A" (by decide),
    by decide,
    (C2_errorCodes_count_matching_fields.2.2.1 (demoCtx false) freshScan [okFrame [2, 3]]).2
      (by decide)⟩

/-- C4: a pass on an error-free, non-empty record whose payload `proto.Unmarshal`
    rejects leaves the map as it was, adds exactly 1 to `processed`, leaves
    `matched` as it was, and goes on to the next extraction. -/
theorem C4_decode_failure_skips_record (c : LoopCtx) (s : ScanState) (r : SplitterResult)
    (rs : List SplitterResult) (p : List Byte)
    (herr : r.err = none) (hrec : r.record ≠ [])
    (hp : payload c.HEADER_FRAMING_SIZE r.record = some p) (hu : c.Unmarshal p = none) :
    (loopBody c s r).1.errorCodes = s.errorCodes
      ∧ (loopBody c s r).1.processed = s.processed + 1
      ∧ (loopBody c s r).1.matched = s.matched
      ∧ (loopBody c s r).2 = Ctl.next
      ∧ scanLoop c s (r :: rs) = scanLoop c (loopBody c s r).1 rs := by
  have hacc : acceptedMessage c r = none := by
    simp [acceptedMessage, herr, hrec, hp, hu]
  have hlen : 0 < r.record.length := List.length_pos.mpr hrec
  have hctl : (loopBody c s r).2 = Ctl.next := by
    simp [loopBody, decodePass, herr, hlen, hp, hu]
  refine ⟨?_, ?_, ?_, hctl, ?_⟩
  · rw [loopBody_errorCodes, hacc]
  · rw [loopBody_processed]; simp [herr, hrec]
  · rw [loopBody_matched, hacc]; simp
  · exact scanLoop_next c s _ r rs (Prod.ext rfl hctl)

/-- Witness for C4: a frame whose payload the toy decoder rejects, followed by an
    accepted record that is still scanned. -/
theorem C4_decode_failure_skips_record_witness :
    (okFrame [255]).err = none ∧ (okFrame [255]).record ≠ []
      ∧ payload (demoCtx false).HEADER_FRAMING_SIZE (okFrame [255]).record = some [255]
      ∧ (demoCtx false).Unmarshal [255] = none
      ∧ ((loopBody (demoCtx false) freshScan (okFrame [255])).1.errorCodes = freshScan.errorCodes
        ∧ (loopBody (demoCtx false) freshScan (okFrame [255])).1.processed = freshScan.processed + 1
        ∧ (loopBody (demoCtx false) freshScan (okFrame [255])).1.matched = freshScan.matched
        ∧ (loopBody (demoCtx false) freshScan (okFrame [255])).2 = Ctl.next
        ∧ scanLoop (demoCtx false) freshScan (okFrame [255] :: [okFrame [1]])
            = scanLoop (demoCtx false) (loopBody (demoCtx false) freshScan (okFrame [255])).1
                [okFrame [1]]) :=
  ⟨by decide, by decide, by decide, by decide,
    C4_decode_failure_skips_record (demoCtx false) freshScan (okFrame [255]) [okFrame [1]] [255]
      (by decide) (by decide) (by decide) (by decide)⟩

/-- C8: two scans from the same state over result lists that agree on every
    record and every error, and differ at most in the consumed-byte numbers
    `n`, make the same number of passes, end the same way, and end with the same
    `processed`, the same `matched` and the same map. -/
theorem C8_corruption_check_is_observational (c : LoopCtx) (s : ScanState)
    (xs ys : List SplitterResult)
    (h : xs.map (fun r => (r.record, r.err)) = ys.map (fun r => (r.record, r.err))) :
    (scanLoop c s xs).1.iters = (scanLoop c s ys).1.iters
      ∧ (scanLoop c s xs).1.processed = (scanLoop c s ys).1.processed
      ∧ (scanLoop c s xs).1.matched = (scanLoop c s ys).1.matched
      ∧ (scanLoop c s xs).1.errorCodes = (scanLoop c s ys).1.errorCodes
      ∧ (scanLoop c s xs).2 = (scanLoop c s ys).2 := by
  obtain ⟨a1, a2, a3, a4, a5⟩ := scanLoop_agree c xs ys s s h rfl rfl rfl
  refine ⟨?_, a2, a3, a1, a4⟩
  rw [scanLoop_iters_eq, scanLoop_iters_eq, a5]

/-- Witness for C8: the first run has a frame with `n = 100` against a record of
    4 bytes and writes the corruption diagnostic, the second has none. -/
theorem C8_corruption_check_is_observational_witness :
    ([⟨100, frame [1], none⟩, okFrame [2], eofResult].map (fun r => (r.record, r.err))
        = [okFrame [1], okFrame [2], eofResult].map (fun r => (r.record, r.err)))
      ∧ (scanLoop (demoCtx false) freshScan [⟨100, frame [1], none⟩, okFrame [2], eofResult]).1.stderr
          = [Diag.corruption 0 96]
      ∧ (scanLoop (demoCtx false) freshScan [okFrame [1], okFrame [2], eofResult]).1.stderr = []
      ∧ ((scanLoop (demoCtx false) freshScan [⟨100, frame [1], none⟩, okFrame [2], eofResult]).1.iters
          = (scanLoop (demoCtx false) freshScan [okFrame [1], okFrame [2], eofResult]).1.iters
        ∧ (scanLoop (demoCtx false) freshScan [⟨100, frame [1], none⟩, okFrame [2], eofResult]).1.processed
          = (scanLoop (demoCtx false) freshScan [okFrame [1], okFrame [2], eofResult]).1.processed
        ∧ (scanLoop (demoCtx false) freshScan [⟨100, frame [1], none⟩, okFrame [2], eofResult]).1.matched
          = (scanLoop (demoCtx false) freshScan [okFrame [1], okFrame [2], eofResult]).1.matched
        ∧ (scanLoop (demoCtx false) freshScan [⟨100, frame [1], none⟩, okFrame [2], eofResult]).1.errorCodes
          = (scanLoop (demoCtx false) freshScan [okFrame [1], okFrame [2], eofResult]).1.errorCodes
        ∧ (scanLoop (demoCtx false) freshScan [⟨100, frame [1], none⟩, okFrame [2], eofResult]).2
          = (scanLoop (demoCtx false) freshScan [okFrame [1], okFrame [2], eofResult]).2) :=
  ⟨by decide, by decide, by decide,
    C8_corruption_check_is_observational (demoCtx false) freshScan
      [⟨100, frame [1], none⟩, okFrame [2], eofResult] [okFrame [1], okFrame [2], eofResult]
      (by decide)⟩

/-- C10 (counterexample): a non-empty, error-free record of length 1 has no
    byte `record[1]`, and a record whose header-length byte 5 plus the framing
    size 3 exceeds its length 4 has no slice `record[8:]`; on either the pass
    ends in the runtime panic and the decoder is not reached. -/
theorem C10_counterexample :
    ([30] : List Byte) ≠ []
      ∧ payload (demoCtx false).HEADER_FRAMING_SIZE [30] = none
      ∧ scanLoop (demoCtx false) freshScan [⟨1, [30], none⟩, okFrame [1]]
          = ({ freshScan with processed := 1, iters := 1 }, LoopEnd.panicked)
      ∧ payload (demoCtx false).HEADER_FRAMING_SIZE [30, 5, 31, 1] = none
      ∧ (loopBody (demoCtx false) freshScan ⟨4, [30, 5, 31, 1], none⟩).2 = Ctl.panic := by
  decide

/-- C10 (amended): for a non-empty record returned without error, the payload
    extraction is in bounds exactly when the record has at least 2 bytes and its
    header-length byte plus the framing size does not exceed its length: then
    the payload is `record[headerLen:]` and the pass reaches the decoder with
    it (and goes on to the next pass unless the accepted message has a field
    without a name); otherwise the pass ends in the index-out-of-range panic. -/
theorem C10_extraction_in_bounds_iff_well_framed (c : LoopCtx) (s : ScanState)
    (r : SplitterResult) (herr : r.err = none) (hrec : r.record ≠ []) :
    (wellFramed c.HEADER_FRAMING_SIZE r.record = true →
        payload c.HEADER_FRAMING_SIZE r.record
            = some (r.record.drop ((r.record.getD 1 0).val + c.HEADER_FRAMING_SIZE))
          ∧ loopBody c s r
              = decodePass c (atPayload s r) r
                  (r.record.drop ((r.record.getD 1 0).val + c.HEADER_FRAMING_SIZE))
          ∧ ((∀ msg, acceptedMessage c r = some msg → allNamed msg = true) →
              (loopBody c s r).2 = Ctl.next))
      ∧ (wellFramed c.HEADER_FRAMING_SIZE r.record = false →
          payload c.HEADER_FRAMING_SIZE r.record = none ∧ (loopBody c s r).2 = Ctl.panic) := by
  constructor
  · intro hwf
    refine ⟨?_, loopBody_of_wellFramed c s r herr hrec hwf,
      loopBody_next_of_wellFormed c s r herr (fun _ => hwf)⟩
    rw [payload_eq, hwf]; simp
  · intro hwf
    refine ⟨?_, loopBody_panic_of_not_wellFramed c s r herr hrec hwf⟩
    rw [payload_eq, hwf]; simp

/-- Witness for the amended C10: a well-framed record with one named field. -/
theorem C10_extraction_in_bounds_iff_well_framed_witness :
    (okFrame [1]).err = none ∧ (okFrame [1]).record ≠ []
      ∧ wellFramed (demoCtx false).HEADER_FRAMING_SIZE (okFrame [1]).record = true
      ∧ (∀ msg, acceptedMessage (demoCtx false) (okFrame [1]) = some msg → allNamed msg = true)
      ∧ payload (demoCtx false).HEADER_FRAMING_SIZE (okFrame [1]).record
          = some ((okFrame [1]).record.drop
              (((okFrame [1]).record.getD 1 0).val + (demoCtx false).HEADER_FRAMING_SIZE))
      ∧ payload (demoCtx false).HEADER_FRAMING_SIZE (okFrame [1]).record = some [1]
      ∧ loopBody (demoCtx false) freshScan (okFrame [1])
          = decodePass (demoCtx false) (atPayload freshScan (okFrame [1])) (okFrame [1])
              ((okFrame [1]).record.drop
                (((okFrame [1]).record.getD 1 0).val + (demoCtx false).HEADER_FRAMING_SIZE))
      ∧ (loopBody (demoCtx false) freshScan (okFrame [1])).2 = Ctl.next :=
  have hacc : acceptedMessage (demoCtx false) (okFrame [1])
      = some ⟨[⟨some "errorCode", "404"⟩]⟩ := by decide
  have hnamed : ∀ msg, acceptedMessage (demoCtx false) (okFrame [1]) = some msg →
      allNamed msg = true := by
    intro msg h
    rw [hacc] at h
    cases h
    decide
  have hthm := (C10_extraction_in_bounds_iff_well_framed (demoCtx false) freshScan (okFrame [1])
    (by decide) (by decide)).1 (by decide)
  ⟨by decide, by decide, by decide, hnamed, hthm.1, by decide, hthm.2.1, hthm.2.2 hnamed⟩

/-- C3 (counterexample): two error-free, non-empty results followed by
    end-of-stream, tail mode off.  In the first run the first record is well
    framed, decodes and is accepted, and its message has a field without a
    name: the scan panics on line 118, `processed` and `matched` are 1 against
    2 non-empty records that decode and are accepted.  In the second run the
    first record has length 1: the scan panics on line 105, `processed` is 1
    against 2 and `matched` is 0 against 1. -/
theorem C3_counterexample :
    (∀ r ∈ [okFrame [6], okFrame [1]], r.err = none)
      ∧ [okFrame [6], okFrame [1]].countP (fun r => decide (r.record ≠ [])) = 2
      ∧ [okFrame [6], okFrame [1]].countP
          (fun r => (acceptedMessage (demoCtx false) r).isSome) = 2
      ∧ scanLoop (demoCtx false) (scanStart 0 ⟨[], none, []⟩)
          ([okFrame [6], okFrame [1]] ++ [eofResult])
          = ({ errorCodes := [], offset := 0, processed := 1, matched := 1,
               stderr := [Diag.input 0], iters := 1 }, LoopEnd.panicked)
      ∧ (∀ r ∈ [(⟨1, [30], none⟩ : SplitterResult), okFrame [1]], r.err = none)
      ∧ [(⟨1, [30], none⟩ : SplitterResult), okFrame [1]].countP
          (fun r => decide (r.record ≠ [])) = 2
      ∧ [(⟨1, [30], none⟩ : SplitterResult), okFrame [1]].countP
          (fun r => (acceptedMessage (demoCtx false) r).isSome) = 1
      ∧ scanLoop (demoCtx false) (scanStart 0 ⟨[], none, []⟩)
          ([⟨1, [30], none⟩, okFrame [1]] ++ [eofResult])
          = ({ errorCodes := [], offset := 0, processed := 1, matched := 0,
               stderr := [Diag.input 0], iters := 1 }, LoopEnd.panicked) := by
  decide

/-- C3 (amended): for every list of error-free splitter results whose non-empty
    records are well framed and whose accepted messages have a name on every
    field, followed by end-of-stream and scanned with tail mode off from the
    start state of a file, the scan ends at the end-of-stream, `processed` ends
    equal to the number of non-empty records, and `matched` ends equal to the
    number of records that are non-empty, decode and are accepted by the
    matcher. -/
theorem C3_counters_over_well_framed_records (c : LoopCtx) (off : Int) (d : DriverState)
    (xs : List SplitterResult) (n : Nat) (rec : List Byte)
    (ht : c.flagTail = false)
    (hxs : ∀ r ∈ xs, r.err = none
      ∧ (r.record ≠ [] → wellFramed c.HEADER_FRAMING_SIZE r.record = true)
      ∧ (∀ msg, acceptedMessage c r = some msg → allNamed msg = true)) :
    (scanLoop c (scanStart off d) (xs ++ [⟨n, rec, some GoError.EOF⟩])).2
        = LoopEnd.broke GoError.EOF
      ∧ (scanLoop c (scanStart off d) (xs ++ [⟨n, rec, some GoError.EOF⟩])).1.processed
          = xs.countP (fun r => decide (r.record ≠ []))
      ∧ (scanLoop c (scanStart off d) (xs ++ [⟨n, rec, some GoError.EOF⟩])).1.matched
          = xs.countP (fun r => (acceptedMessage c r).isSome) := by
  have h := scanLoop_counters c ⟨n, rec, some GoError.EOF⟩ ht rfl xs (scanStart off d) hxs
  simpa [scanStart] using h

/-- Witness for the amended C3: an accepted record, an empty record, a record
    that fails to decode and a rejected record, then end-of-stream. -/
theorem C3_counters_over_well_framed_records_witness :
    (demoCtx false).flagTail = false
      ∧ (∀ r ∈ [okFrame [1], ⟨0, [], none⟩, okFrame [255], okFrame [5]], r.err = none
          ∧ (r.record ≠ [] → wellFramed (demoCtx false).HEADER_FRAMING_SIZE r.record = true)
          ∧ Option.all allNamed (acceptedMessage (demoCtx false) r) = true)
      ∧ [okFrame [1], ⟨0, [], none⟩, okFrame [255], okFrame [5]].countP
          (fun r => decide (r.record ≠ [])) = 3
      ∧ [okFrame [1], ⟨0, [], none⟩, okFrame [255], okFrame [5]].countP
          (fun r => (acceptedMessage (demoCtx false) r).isSome) = 1
      ∧ ((scanLoop (demoCtx false) (scanStart 0 ⟨[], none, []⟩)
            ([okFrame [1], ⟨0, [], none⟩, okFrame [255], okFrame [5]]
              ++ [⟨0, [], some GoError.EOF⟩])).2 = LoopEnd.broke GoError.EOF
        ∧ (scanLoop (demoCtx false) (scanStart 0 ⟨[], none, []⟩)
            ([okFrame [1], ⟨0, [], none⟩, okFrame [255], okFrame [5]]
              ++ [⟨0, [], some GoError.EOF⟩])).1.processed
            = [okFrame [1], ⟨0, [], none⟩, okFrame [255], okFrame [5]].countP
                (fun r => decide (r.record ≠ []))
        ∧ (scanLoop (demoCtx false) (scanStart 0 ⟨[], none, []⟩)
            ([okFrame [1], ⟨0, [], none⟩, okFrame [255], okFrame [5]]
              ++ [⟨0, [], some GoError.EOF⟩])).1.matched
            = [okFrame [1], ⟨0, [], none⟩, okFrame [255], okFrame [5]].countP
                (fun r => (acceptedMessage (demoCtx false) r).isSome)) :=
  have hxs : ∀ r ∈ [okFrame [1], ⟨0, [], none⟩, okFrame [255], okFrame [5]], r.err = none
      ∧ (r.record ≠ [] → wellFramed (demoCtx false).HEADER_FRAMING_SIZE r.record = true)
      ∧ Option.all allNamed (acceptedMessage (demoCtx false) r) = true := by decide
  ⟨by decide, hxs, by decide, by decide,
    C3_counters_over_well_framed_records (demoCtx false) 0 ⟨[], none, []⟩
      [okFrame [1], ⟨0, [], none⟩, okFrame [255], okFrame [5]] 0 [] (by decide)
      (fun r hr => ⟨(hxs r hr).1, (hxs r hr).2.1, fun msg hacc => by
        have h3 := (hxs r hr).2.2
        rw [hacc] at h3
        simpa using h3⟩)⟩

/-- C9 (counterexample): tail mode on; end-of-stream is reached, then a record is
    appended that decodes and is accepted by the matcher and whose message has a
    field without a name before its `errorCode` field 404.  The pass on it
    panics on line 118 and the value 404 is not counted. -/
theorem C9_counterexample :
    acceptedMessage (demoCtx true) (okFrame [6, 1])
        = some ⟨[⟨none, "404"⟩, ⟨some "errorCode", "404"⟩]⟩
      ∧ errorCodeFields ⟨[⟨none, "404"⟩, ⟨some "errorCode", "404"⟩]⟩ "404" = 1
      ∧ scanLoop (demoCtx true) freshScan [eofResult, okFrame [6, 1]]
          = ({ freshScan with processed := 1, matched := 1, iters := 2 }, LoopEnd.panicked)
      ∧ CountMap.get (scanLoop (demoCtx true) freshScan [eofResult, okFrame [6, 1]]).1.errorCodes
          "404" = 0 := by
  decide

/-- C9 (amended): with tail mode on, a pass on an end-of-stream result
    `(n, rec, io.EOF)` goes on to the next pass and leaves the map, `processed`
    and `matched` as they were; the scan of `xs`, that result, then `ys` ends
    like the scan of `xs` followed by `ys`, with the same map and counters; of a
    record accepted after the end-of-stream the `errorCode` fields that precede
    its first field without a name are counted, all its `errorCode` fields when
    every field has a name.  With tail mode off the pass on an end-of-stream
    result leaves the loop, and the scan of `xs`, end-of-stream, `ys` is the scan
    of `xs`, end-of-stream: it consumes at most the results up to that
    end-of-stream and the loop is over. -/
theorem C9_end_of_stream_and_tail_mode (c : LoopCtx) (s : ScanState)
    (xs ys : List SplitterResult) (n : Nat) (rec : List Byte) :
    ((loopBody { c with flagTail := true } s ⟨n, rec, some GoError.EOF⟩).2 = Ctl.next
        ∧ (loopBody { c with flagTail := true } s ⟨n, rec, some GoError.EOF⟩).1.errorCodes
            = s.errorCodes
        ∧ (loopBody { c with flagTail := true } s ⟨n, rec, some GoError.EOF⟩).1.processed
            = s.processed
        ∧ (loopBody { c with flagTail := true } s ⟨n, rec, some GoError.EOF⟩).1.matched
            = s.matched)
      ∧ ((scanLoop { c with flagTail := true } s (xs ++ ⟨n, rec, some GoError.EOF⟩ :: ys)).1.processed
            = (scanLoop { c with flagTail := true } s (xs ++ ys)).1.processed
        ∧ (scanLoop { c with flagTail := true } s (xs ++ ⟨n, rec, some GoError.EOF⟩ :: ys)).1.matched
            = (scanLoop { c with flagTail := true } s (xs ++ ys)).1.matched
        ∧ (scanLoop { c with flagTail := true } s (xs ++ ⟨n, rec, some GoError.EOF⟩ :: ys)).1.errorCodes
            = (scanLoop { c with flagTail := true } s (xs ++ ys)).1.errorCodes
        ∧ (scanLoop { c with flagTail := true } s (xs ++ ⟨n, rec, some GoError.EOF⟩ :: ys)).2
            = (scanLoop { c with flagTail := true } s (xs ++ ys)).2)
      ∧ (∀ (r : SplitterResult) (msg : Message) (v : String),
          (scanLoop { c with flagTail := true } s xs).2 = LoopEnd.running →
          acceptedMessage { c with flagTail := true } r = some msg →
          (scanLoop { c with flagTail := true } s
              (xs ++ [⟨n, rec, some GoError.EOF⟩, r])).1.errorCodes.get v
            = (scanLoop { c with flagTail := true } s xs).1.errorCodes.get v
                + countedFields msg v
          ∧ (allNamed msg = true → countedFields msg v = errorCodeFields msg v))
      ∧ (loopBody { c with flagTail := false } s ⟨n, rec, some GoError.EOF⟩).2
          = Ctl.brk GoError.EOF
      ∧ scanLoop { c with flagTail := false } s (xs ++ ⟨n, rec, some GoError.EOF⟩ :: ys)
          = scanLoop { c with flagTail := false } s (xs ++ [⟨n, rec, some GoError.EOF⟩])
      ∧ (scanLoop { c with flagTail := false } s (xs ++ ⟨n, rec, some GoError.EOF⟩ :: ys)).2
          ≠ LoopEnd.running
      ∧ consumed { c with flagTail := false } s (xs ++ ⟨n, rec, some GoError.EOF⟩ :: ys)
          ≤ xs.length + 1 := by
  have hskip := scanLoop_skip_eof { c with flagTail := true } ⟨n, rec, some GoError.EOF⟩ rfl rfl
  have hstop := scanLoop_stop_at_eof { c with flagTail := false } ⟨n, rec, some GoError.EOF⟩
    rfl rfl xs ys s
  refine ⟨loopBody_eof_tail _ s _ rfl rfl, ?_, ?_,
    loopBody_eof_notail _ s _ rfl rfl, hstop.1, hstop.2, ?_⟩
  · obtain ⟨a1, a2, a3, a4⟩ := hskip xs ys s
    exact ⟨a2, a3, a1, a4⟩
  · intro r msg v hrun hacc
    refine ⟨?_, countedFields_of_allNamed msg v⟩
    have h1 := (hskip xs [r] s).1
    rw [show xs ++ [⟨n, rec, some GoError.EOF⟩, r] = xs ++ ⟨n, rec, some GoError.EOF⟩ :: [r] from rfl,
      h1, scanLoop_append, if_pos hrun]
    have hb := loopBody_get { c with flagTail := true }
      (scanLoop { c with flagTail := true } s xs).1 r v
    have hcontr : contribution { c with flagTail := true } v r = countedFields msg v := by
      simp [contribution, hacc]
    rw [hcontr] at hb
    rcases hl : loopBody { c with flagTail := true } (scanLoop { c with flagTail := true } s xs).1 r
      with ⟨s', ctl⟩
    rw [hl] at hb
    simp only at hb
    cases ctl with
    | next => rw [scanLoop_next _ _ s' r [] hl, scanLoop_nil]; exact hb
    | brk e => rw [scanLoop_brk _ _ s' r e [] hl]; exact hb
    | panic => rw [scanLoop_panic _ _ s' r [] hl]; exact hb
  · unfold consumed
    rw [hstop.1]
    have := consumed_le { c with flagTail := false } (xs ++ [⟨n, rec, some GoError.EOF⟩]) s
    unfold consumed at this
    simpa using this

/-- Witness for the amended C9: a file with one accepted record, end-of-stream
    reached, then a second accepted record appended, every field named; the
    appended record's value is counted. -/
theorem C9_end_of_stream_and_tail_mode_witness :
    (scanLoop { demoCtx false with flagTail := true } freshScan [okFrame [1]]).2 = LoopEnd.running
      ∧ acceptedMessage { demoCtx false with flagTail := true } (okFrame [1])
          = some ⟨[⟨some "errorCode", "404"⟩]⟩
      ∧ allNamed ⟨[⟨some "errorCode", "404"⟩]⟩ = true
      ∧ (scanLoop { demoCtx false with flagTail := true } freshScan
            ([okFrame [1]] ++ [⟨0, [], some GoError.EOF⟩, okFrame [1]])).1.errorCodes.get "404"
          = (scanLoop { demoCtx false with flagTail := true } freshScan
              [okFrame [1]]).1.errorCodes.get "404"
            + countedFields ⟨[⟨some "errorCode", "404"⟩]⟩ "404"
      ∧ countedFields ⟨[⟨some "errorCode", "404"⟩]⟩ "404"
          = errorCodeFields ⟨[⟨some "errorCode", "404"⟩]⟩ "404"
      ∧ (scanLoop { demoCtx false with flagTail := true } freshScan
            ([okFrame [1]] ++ [⟨0, [], some GoError.EOF⟩, okFrame [1]])).1.errorCodes
          = [("404", 2)] :=
  have h := (C9_end_of_stream_and_tail_mode (demoCtx false) freshScan [okFrame [1]] [] 0 []).2.2.1
    (okFrame [1]) ⟨[⟨some "errorCode", "404"⟩]⟩ "404" (by decide) (by decide)
  ⟨by decide, by decide, by decide, h.1, h.2 (by decide), by decide⟩

/-- C7: when a file is set up and, with its scan still running, the splitter
    returns an error other than `io.EOF`, only that scan ends: the pass leaves
    the loop without touching the map or the counters and without consuming a
    later result; the loop over the files goes on with the map exactly as it
    was at the error; the run from there is the run over the later files from
    that map; each later scan starts at the configured offset with `processed`
    and `matched` at 0 and the map carried over; and when the later files are
    set up and their scans leave their loops, `main` returns and the report
    gives every value at least the count it had at the error. -/
theorem C7_stream_error_ends_one_file_only (c : LoopCtx) (off : Int) (d : DriverState)
    (f : InputFile) (post : List InputFile) (xs ys : List SplitterResult) (n : Nat)
    (rec : List Byte) (msg : String)
    (hsetup : ∀ g ∈ f :: post, setupOk g = true)
    (hstream : f.stream = xs ++ ⟨n, rec, some (GoError.other msg)⟩ :: ys)
    (hrun : (scanLoop c (scanStart off d) xs).2 = LoopEnd.running) :
    (scanLoop c (scanStart off d) f.stream).2 = LoopEnd.broke (GoError.other msg)
      ∧ consumed c (scanStart off d) f.stream = xs.length + 1
      ∧ (scanLoop c (scanStart off d) f.stream).1.errorCodes
          = (scanLoop c (scanStart off d) xs).1.errorCodes
      ∧ (scanLoop c (scanStart off d) f.stream).1.processed
          = (scanLoop c (scanStart off d) xs).1.processed
      ∧ (scanLoop c (scanStart off d) f.stream).1.matched
          = (scanLoop c (scanStart off d) xs).1.matched
      ∧ fileBody c off d f
          = Sum.inr { errorCodes := (scanLoop c (scanStart off d) xs).1.errorCodes, err := none,
                      stderr := (scanLoop c (scanStart off d) f.stream).1.stderr
                        ++ [Diag.summary (scanLoop c (scanStart off d) xs).1.processed
                              (scanLoop c (scanStart off d) xs).1.matched] }
      ∧ fileLoop c off d (f :: post)
          = fileLoop c off
              { errorCodes := (scanLoop c (scanStart off d) xs).1.errorCodes, err := none,
                stderr := (scanLoop c (scanStart off d) f.stream).1.stderr
                  ++ [Diag.summary (scanLoop c (scanStart off d) xs).1.processed
                        (scanLoop c (scanStart off d) xs).1.matched] } post
      ∧ (∀ d' : DriverState, (scanStart off d').offset = off ∧ (scanStart off d').processed = 0
          ∧ (scanStart off d').matched = 0 ∧ (scanStart off d').errorCodes = d'.errorCodes)
      ∧ ((∀ g ∈ post, leavesLoop c g.stream = true) →
          (fileLoop c off d (f :: post)).term = Termination.exit 0
            ∧ ∀ v, CountMap.get (scanLoop c (scanStart off d) xs).1.errorCodes v
                ≤ CountMap.get (fileLoop c off d (f :: post)).out v) := by
  have hf := hsetup f (List.mem_cons_self f post)
  have hbody := loopBody_stream_error c (scanLoop c (scanStart off d) xs).1 n rec msg
  have hscan : scanLoop c (scanStart off d) f.stream
      = (corruptionCheck
          { (scanLoop c (scanStart off d) xs).1 with
            iters := (scanLoop c (scanStart off d) xs).1.iters + 1 }
          ⟨n, rec, some (GoError.other msg)⟩, LoopEnd.broke (GoError.other msg)) := by
    rw [hstream, scanLoop_append, if_pos hrun]
    exact scanLoop_brk c _ _ _ _ ys hbody
  obtain ⟨k1, k2, k3, k4, _⟩ := corruptionCheck_fields
    { (scanLoop c (scanStart off d) xs).1 with
      iters := (scanLoop c (scanStart off d) xs).1.iters + 1 }
    ⟨n, rec, some (GoError.other msg)⟩
  have hE : (scanLoop c (scanStart off d) f.stream).1.errorCodes
      = (scanLoop c (scanStart off d) xs).1.errorCodes := by rw [hscan]; exact k1
  have hP : (scanLoop c (scanStart off d) f.stream).1.processed
      = (scanLoop c (scanStart off d) xs).1.processed := by rw [hscan]; exact k2
  have hM : (scanLoop c (scanStart off d) f.stream).1.matched
      = (scanLoop c (scanStart off d) xs).1.matched := by rw [hscan]; exact k3
  have hC : consumed c (scanStart off d) f.stream = xs.length + 1 := by
    have hx := (consumed_of_running c xs (scanStart off d)) hrun
    have hi := scanLoop_iters_eq c xs (scanStart off d)
    unfold consumed
    rw [hscan]
    simp only [k4]
    omega
  have hfb := fileBody_of_broke c off d f _ (GoError.other msg) hf
    (Prod.ext rfl (by rw [hscan]) : scanLoop c (scanStart off d) f.stream
      = ((scanLoop c (scanStart off d) f.stream).1, LoopEnd.broke (GoError.other msg)))
  rw [hE, hP, hM] at hfb
  have hloop := fileLoop_cons_inr c off d _ f post hfb
  refine ⟨by rw [hscan], hC, hE, hP, hM, hfb, hloop, fun d' => ⟨rfl, rfl, rfl, rfl⟩, ?_⟩
  intro hpost
  rw [hloop]
  exact fileLoop_completes c off post _ rfl
    (fun g hg => ⟨hsetup g (List.mem_cons_of_mem f hg), hpost g hg⟩)

/-- Witness for C7: the first file yields one accepted record, then a read
    error, and would have had a further record; the second file has two
    accepted records and end-of-stream.  The report has the first file's `404`
    together with the second file's counts, and nothing of the record after
    the error. -/
theorem C7_stream_error_ends_one_file_only_witness :
    (∀ g ∈ goodFile [okFrame [1], ioErrResult, okFrame [3]]
          :: [goodFile [okFrame [1], okFrame [2], eofResult]], setupOk g = true)
      ∧ (goodFile [okFrame [1], ioErrResult, okFrame [3]]).stream
          = [okFrame [1]] ++ ⟨0, [], some (GoError.other "read error")⟩ :: [okFrame [3]]
      ∧ scanLoop (demoCtx false) (scanStart 0 ⟨[], none, []⟩) [okFrame [1]]
          = ({ errorCodes := [("404", 1)], offset := 4, processed := 1, matched := 1,
               stderr := [Diag.input 0], iters := 1 }, LoopEnd.running)
      ∧ (∀ g ∈ [goodFile [okFrame [1], okFrame [2], eofResult]],
          leavesLoop (demoCtx false) g.stream = true)
      ∧ main demoEnv (demoArgs [goodFile [okFrame [1], ioErrResult, okFrame [3]],
            goodFile [okFrame [1], okFrame [2], eofResult]])
          = { term := Termination.exit 0, out := [("404", 2), ("A", 1)],
              stderr := [Diag.input 0, Diag.summary 1 1, Diag.input 0, Diag.summary 2 2] }
      ∧ ((fileLoop (demoCtx false) 0 ⟨[], none, []⟩
            (goodFile [okFrame [1], ioErrResult, okFrame [3]]
              :: [goodFile [okFrame [1], okFrame [2], eofResult]])).term = Termination.exit 0
        ∧ ∀ v, CountMap.get
              (scanLoop (demoCtx false) (scanStart 0 ⟨[], none, []⟩) [okFrame [1]]).1.errorCodes v
            ≤ CountMap.get (fileLoop (demoCtx false) 0 ⟨[], none, []⟩
                (goodFile [okFrame [1], ioErrResult, okFrame [3]]
                  :: [goodFile [okFrame [1], okFrame [2], eofResult]])).out v) :=
  ⟨by decide, by decide, by decide, by decide, by decide,
    (C7_stream_error_ends_one_file_only (demoCtx false) 0 ⟨[], none, []⟩
      (goodFile [okFrame [1], ioErrResult, okFrame [3]])
      [goodFile [okFrame [1], okFrame [2], eofResult]] [okFrame [1]] [okFrame [3]] 0 []
      "read error" (by decide) (by decide) (by decide)).2.2.2.2.2.2.2.2 (by decide)⟩

/-- C5 (counterexample): the first file yields one accepted record with
    `errorCode` 404 and ends; run alone, its entry `404, 1` is reported.  With a
    second file that fails to open, the run ends with status 3 and the handle
    `out` has received nothing. -/
theorem C5_counterexample :
    main demoEnv (demoArgs [goodFile [okFrame [1], eofResult]])
        = { term := Termination.exit 0, out := [("404", 1)],
            stderr := [Diag.input 0, Diag.summary 1 1] }
      ∧ main demoEnv (demoArgs [goodFile [okFrame [1], eofResult],
missingFile])
          = { term := Termination.exit 3, out := [],
              stderr := [Diag.input 0, Diag.summary 1 1,
                         Diag.fatal (GoError.other "no such file")] } := by
  decide

/-- C5 (amended): in a run of `main` whose configuration is accepted, when the
    files before the k-th are set up and their scans leave their loops and the
    k-th file fails to open, the process stops with status 3 and nothing is
    written to the output destination: the entries accumulated from the earlier
    files are not reported. -/
theorem C5_open_failure_exits_without_report (env : Env) (a : Args) (m : Message → Bool)
    (pre post : List InputFile) (f : InputFile) (e : GoError)
    (hsize : a.flagMaxMessageSize < MaxUint32)
    (hmatch : env.CreateMatcherSpecification a.flagMatch = Except.ok m)
    (hout : a.flagOutput = "" ∨ a.outputOpenErr = none)
    (hfiles : a.files = pre ++ f :: post)
    (hpre : ∀ g ∈ pre, setupOk g = true ∧ leavesLoop (loopCtx env a m) g.stream = true)
    (hopen : f.openErr = some e) :
    (main env a).term = Termination.exit 3 ∧ (main env a).out = [] := by
  rw [main_of_config_ok env a m hsize hmatch hout, hfiles]
  exact fileLoop_open_failure (loopCtx env a m) a.flagOffset f e post hopen pre _ hpre

/-- Witness for the amended C5: two files scanned to their end-of-stream, the
    third fails to open. -/
theorem C5_open_failure_exits_without_report_witness :
    (demoArgs ([goodFile [okFrame [1], eofResult], goodFile [okFrame [2], eofResult]]
        ++ missingFile :: [])).flagMaxMessageSize
        < MaxUint32
      ∧ (∀ g ∈ [goodFile [okFrame [1], eofResult], goodFile [okFrame [2], eofResult]],
          setupOk g = true ∧ leavesLoop (demoCtx false) g.stream = true)
      ∧ ((main demoEnv (demoArgs ([goodFile [okFrame [1], eofResult],
              goodFile [okFrame [2], eofResult]]
            ++ missingFile :: []))).term
          = Termination.exit 3
        ∧ (main demoEnv (demoArgs ([goodFile [okFrame [1], eofResult],
              goodFile [okFrame [2], eofResult]]
            ++ missingFile :: []))).out = []) :=
  ⟨by decide, by decide,
    C5_open_failure_exits_without_report demoEnv
      (demoArgs ([goodFile [okFrame [1], eofResult], goodFile [okFrame [2], eofResult]]
        ++ missingFile :: []))
      demoMatch [goodFile [okFrame [1], eofResult], goodFile [okFrame [2], eofResult]] []
      missingFile (GoError.other "no such file")
      (by decide) rfl (Or.inl rfl) rfl (by decide) rfl⟩

/-- C6 (the code departs from the claim): six of the seven conditions end the
    run with the statuses 8, 2, 4, 3, 5 and 7; a stream error other than
    `io.EOF` that ended the scan of the last file ends the run with status 0,
    the status of a run without any failure, and no run ends with status 6. -/
theorem C6_stream_error_exits_with_status_zero :
    (main demoEnv { (demoArgs []) with flagMaxMessageSize := MaxUint32 }).term = Termination.exit 8
      ∧ (main demoEnv { (demoArgs []) with flagMatch := "(" }).term = Termination.exit 2
      ∧ (main demoEnv
          { (demoArgs []) with
            flagOutput := "/nonexistent/out"
            outputOpenErr := some (GoError.other "no such directory") }).term = Termination.exit 4
      ∧ (main demoEnv (demoArgs [missingFile])).term
          = Termination.exit 3
      ∧ (main demoEnv (demoArgs [⟨none, some (GoError.other "invalid argument"), none, []⟩])).term
          = Termination.exit 5
      ∧ (main demoEnv (demoArgs [⟨none, none, some (GoError.other "init"), []⟩])).term
          = Termination.exit 7
      ∧ (scanLoop (demoCtx false) (scanStart 0 ⟨[], none, []⟩) [okFrame [1], ioErrResult]).2
          = LoopEnd.broke (GoError.other "read error")
      ∧ main demoEnv (demoArgs [goodFile [okFrame [1], ioErrResult]])
          = { term := Termination.exit 0, out := [("404", 1)],
              stderr := [Diag.input 0, Diag.summary 1 1] }
      ∧ main demoEnv (demoArgs [goodFile [okFrame [1], eofResult]])
          = { term := Termination.exit 0, out := [("404", 1)],
              stderr := [Diag.input 0, Diag.summary 1 1] }
      ∧ ∀ (env : Env) (a : Args), (main env a).term ≠ Termination.exit 6 := by
  refine ⟨by decide, by decide, by decide, by decide, by decide, by decide, by decide,
    by decide, by decide, ?_⟩
  intro env a
  unfold main
  by_cases hsize : a.flagMaxMessageSize < MaxUint32
  · rcases hm : env.CreateMatcherSpecification a.flagMatch with e | m
    · simp [hsize, hm]
    · by_cases ho : a.flagOutput = ""
      · simp only [hsize, hm, ho, if_true]
        exact fileLoop_never_exit_6 _ _ _ _ rfl
      · rcases hoe : a.outputOpenErr with _ | e
        · simp only [hsize, hm, ho, hoe, if_true, if_false]
          exact fileLoop_never_exit_6 _ _ _ _ rfl
        · simp [hsize, hm, ho, hoe]
  · simp [hsize]

end ErrorCodes
